import Mathlib

/-!
Shallow embedding of the strictdoc source-annotation reader
(`strictdoc/backend/sdoc_source_code/reader.py`), the traceability-info
model (`models/source_file_info.py`), the semantic-error class
(`strictdoc/backend/sdoc/error_handling.py`), and two small model
constructors (`Requirement.__init__` uid handling and
`ParentReqReference.__init__` role_uid handling).

Python mutable marker objects are modelled by an arena (a list of marker
records); the output marker list, the open-marker stack and the
requirement index store arena indices, which reproduces the aliasing of
the Python objects (mutating the marker popped from the stack is visible
through the output list).
-/

namespace StrictDoc

/-- A source location as produced by textx `get_location`:
a line, a column and an optional filename. -/
structure Loc where
  line : Nat
  col : Nat
  filename : Option String
deriving Repr, DecidableEq

/-- The data carried by a marker object.

Modelled from the spec: the class file
`strictdoc/backend/sdoc_source_code/models/range_marker.py` is not under
`src/`; per the spec a marker is "one of LineMarker,
RangeMarker(begin/end flag, set of requirement ids, nodoc flag)" with
"source line of the marker token itself, and - once matched - the
resolved line range it covers".  `is_line` distinguishes the LineMarker
class from the RangeMarker class; for a RangeMarker, `begin_flag` is the
begin/end flag.  The `ng_*` fields start out unset (`none`) and are
assigned by the reader's processors. -/
structure MarkerData where
  is_line : Bool
  ng_is_nodoc : Bool
  begin_flag : Bool
  reqs : List String
  loc_line : Nat
  loc_col : Nat
  ng_source_line_begin : Option Nat := none
  ng_range_line_begin : Option Nat := none
  ng_range_line_end : Option Nat := none
deriving Repr, DecidableEq

/-- `RangeMarker.is_begin` / `LineMarker.is_begin`.  Modelled from the
spec: a LineMarker counts as a begin marker carrying its own line as both
range bounds; a RangeMarker is a begin marker iff its begin/end flag says
so. -/
def MarkerData.is_begin (m : MarkerData) : Bool :=
  if m.is_line then true else m.begin_flag

/-- `RangeMarker.is_end`: a range marker that is not a begin marker. -/
def MarkerData.is_end (m : MarkerData) : Bool :=
  if m.is_line then false else !m.begin_flag

/-- A placeholder marker used for out-of-bounds arena lookups; every
lookup performed by the embedded code is in bounds. -/
def dummyMarker : MarkerData :=
  { is_line := false, ng_is_nodoc := false, begin_flag := false,
    reqs := [], loc_line := 0, loc_col := 0 }

/-- Dereference an arena index (a Python object reference). -/
def arenaGet (arena : List MarkerData) (i : Nat) : MarkerData :=
  arena.getD i dummyMarker

/-- `StrictDocSemanticError.__init__` (error_handling.py): the error value
keeps `title`, `hint`, `example`, `line`, `col` and `filename` (stored as
`file_path`).  Python `None` is `none`. -/
structure StrictDocSemanticError where
  title : String
  hint : Option String
  example_text : Option String
  line : Option Nat
  col : Option Nat
  file_path : Option String
deriving Repr, DecidableEq

/-- Errors the embedded reader can raise: a `StrictDocSemanticError`, or a
Python `AssertionError` from `assert_cast` (the reader asserts that each
considered marker has resolved integer range bounds). -/
inductive ReadErr where
  | sem (e : StrictDocSemanticError)
  | assertFail
deriving Repr, DecidableEq

/-- `ParseContext.__init__` (reader.py): total line count, accumulated
accepted markers, the open-marker stack, and the requirement-to-marker
index.  `markers` and `marker_stack` hold arena indices; the head of
`marker_stack` is the top of the Python stack (its `[-1]`).
`map_reqs_to_markers` is an insertion-ordered association list, like a
Python dict. -/
structure ParseContext where
  lines_total : Nat
  arena : List MarkerData := []
  markers : List Nat := []
  marker_stack : List Nat := []
  map_reqs_to_markers : List (String × List Nat) := []
deriving Repr, DecidableEq

/-- `parse_context.map_reqs_to_markers.setdefault(req, []).append(marker)`:
append `v` to the list stored under `k`, creating the entry (at the end,
in dict insertion order) when absent. -/
def mapSetdefaultAppend (m : List (String × List Nat)) (k : String) (v : Nat) :
    List (String × List Nat) :=
  match m with
  | [] => [(k, [v])]
  | (k₁, vs) :: rest =>
      if k₁ = k then (k₁, vs ++ [v]) :: rest
      else (k₁, vs) :: mapSetdefaultAppend rest k v

/-- Python `repr` of a list of ints, e.g. `[3, 5]`. -/
def pyListRepr (xs : List Nat) : String :=
  "[" ++ String.intercalate ", " (xs.map toString) ++ "]"

/-- `create_begin_end_range_reqs_mismatch_error` (reader.py): the hint
embeds both requirement-id lists joined by `", "`. -/
def create_begin_end_range_reqs_mismatch_error
    (location : Loc) (lhs_marker_reqs rhs_marker_reqs : List String) :
    StrictDocSemanticError :=
  let lhs_marker_reqs_str := String.intercalate ", " lhs_marker_reqs
  let rhs_marker_reqs_str := String.intercalate ", " rhs_marker_reqs
  { title := "STRICTDOC RANGE: BEGIN and END requirements mismatch",
    hint := some ("STRICT RANGE marker should START and END "
      ++ "with the same requirement(s): "
      ++ "\x27" ++ lhs_marker_reqs_str ++ "\x27 != \x27"
      ++ rhs_marker_reqs_str ++ "\x27."),
    example_text := some "# [REQ-001]\nContent...\n# [/REQ-001]\n        ",
    line := some location.line,
    col := some location.col,
    file_path := location.filename }

/-- `create_end_without_begin_error` (reader.py). -/
def create_end_without_begin_error (location : Loc) : StrictDocSemanticError :=
  { title := "STRICTDOC RANGE: END marker without preceding BEGIN marker",
    hint := some ("STRICT RANGE shall be opened with "
      ++ "START marker and ended with END marker."),
    example_text := some "# [REQ-001]\nContent...\n# [/REQ-001]\n        ",
    line := some location.line,
    col := some location.col,
    file_path := location.filename }

/-- `create_unmatch_range_error` (reader.py): takes the unmatched ranges
in Python stack order (bottom of the stack first); the primary location is
the first (= earliest-opened) one, and when more than one range is
unmatched the hint lists the lines of the remaining ones. -/
def create_unmatch_range_error (filename : Option String)
    (unmatched_ranges : List MarkerData) : StrictDocSemanticError :=
  let range_locations : List Loc :=
    unmatched_ranges.map (fun m => ⟨m.loc_line, m.loc_col, filename⟩)
  let first_location : Loc := range_locations.headD ⟨0, 0, none⟩
  let hint : Option String :=
    if unmatched_ranges.length > 1 then
      some ("The @sdoc keywords are also unmatched on lines: "
        ++ pyListRepr ((range_locations.drop 1).map Loc.line) ++ ".")
    else none
  { title := "Unmatched @sdoc keyword found in source file.",
    hint := hint,
    example_text := some ("Each @sdoc keyword must be matched with a closing keyword. "
      ++ "Example:\n@sdoc[REQ-001]\n...\n@sdoc[/REQ-001]"),
    line := some first_location.line,
    col := some first_location.col,
    file_path := filename }

/-- `range_marker_processor` (reader.py).  The freshly parsed RangeMarker
object is appended to the arena at index `ctx.arena.length`; the function
then follows the Python control flow.  An error discards the context, as
the Python exception does. -/
def range_marker_processor (filename : Option String)
    (tokLine tokCol : Nat) (nodoc beginFlag : Bool) (reqs : List String)
    (ctx : ParseContext) : Except ReadErr ParseContext :=
  let location : Loc := ⟨tokLine, tokCol, filename⟩
  let marker : MarkerData :=
    { is_line := false, ng_is_nodoc := nodoc, begin_flag := beginFlag,
      reqs := reqs, loc_line := tokLine, loc_col := tokCol }
  let idx := ctx.arena.length
  let ctx₁ : ParseContext := { ctx with arena := ctx.arena ++ [marker] }
  if marker.ng_is_nodoc then
    if marker.is_begin then
      .ok { ctx₁ with marker_stack := idx :: ctx₁.marker_stack }
    else
      match ctx₁.marker_stack with
      | [] => .error (.sem (create_end_without_begin_error location))
      | topIdx :: rest =>
          let current_top_marker := arenaGet ctx₁.arena topIdx
          if !current_top_marker.ng_is_nodoc || current_top_marker.is_end then
            .error (.sem (create_begin_end_range_reqs_mismatch_error
              location current_top_marker.reqs marker.reqs))
          else
            .ok { ctx₁ with marker_stack := rest }
  else if (match ctx₁.marker_stack with
           | [] => false
           | topIdx :: _ => (arenaGet ctx₁.arena topIdx).ng_is_nodoc) then
    -- This marker is within a "nosdoc" block, so we ignore it.
    .ok ctx₁
  else if marker.is_begin then
    let marker := { marker with
      ng_source_line_begin := some tokLine,
      ng_range_line_begin := some tokLine }
    .ok { ctx₁ with
      arena := ctx₁.arena.set idx marker,
      markers := ctx₁.markers ++ [idx],
      marker_stack := idx :: ctx₁.marker_stack,
      map_reqs_to_markers :=
        reqs.foldl (fun m r => mapSetdefaultAppend m r idx)
          ctx₁.map_reqs_to_markers }
  else
    match ctx₁.marker_stack with
    | [] => .error (.sem (create_end_without_begin_error location))
    | topIdx :: rest =>
        let current_top_marker := arenaGet ctx₁.arena topIdx
        if reqs ≠ current_top_marker.reqs then
          .error (.sem (create_begin_end_range_reqs_mismatch_error
            location current_top_marker.reqs reqs))
        else
          let top := { current_top_marker with ng_range_line_end := some tokLine }
          let marker := { marker with
            ng_source_line_begin := some tokLine,
            ng_range_line_begin := current_top_marker.ng_range_line_begin,
            ng_range_line_end := some tokLine }
          .ok { ctx₁ with
            arena := (ctx₁.arena.set idx marker).set topIdx top,
            markers := ctx₁.markers ++ [idx],
            marker_stack := rest }

/-- `line_marker_processor` (reader.py). -/
def line_marker_processor (filename : Option String)
    (tokLine tokCol : Nat) (reqs : List String)
    (ctx : ParseContext) : Except ReadErr ParseContext :=
  let _location : Loc := ⟨tokLine, tokCol, filename⟩
  let line_marker : MarkerData :=
    { is_line := true, ng_is_nodoc := false, begin_flag := true,
      reqs := reqs, loc_line := tokLine, loc_col := tokCol }
  let idx := ctx.arena.length
  let ctx₁ : ParseContext := { ctx with arena := ctx.arena ++ [line_marker] }
  if (match ctx₁.marker_stack with
      | [] => false
      | topIdx :: _ => (arenaGet ctx₁.arena topIdx).ng_is_nodoc) then
    -- This marker is within a "nosdoc" block, so we ignore it.
    .ok ctx₁
  else
    let line_marker := { line_marker with
      ng_source_line_begin := some tokLine,
      ng_range_line_begin := some tokLine,
      ng_range_line_end := some tokLine }
    .ok { ctx₁ with
      arena := ctx₁.arena.set idx line_marker,
      markers := ctx₁.markers ++ [idx],
      map_reqs_to_markers :=
        reqs.foldl (fun m r => mapSetdefaultAppend m r idx)
          ctx₁.map_reqs_to_markers }

/-- A marker token of the scanned source text, in file order.

Modelled from the spec: the textx grammar
(`strictdoc/backend/sdoc_source_code/grammar.py`) is not under `src/`;
per the spec the scan yields "in file order, a sequence of marker tokens,
each either a LineMarker (single line, one or more requirement ids) or a
RangeMarker (begin-flag or end-flag, one or more requirement ids, and a
nodoc flag)", each carrying its location.  The reader's object processors
(embedded above from `reader.py`) consume exactly this stream. -/
inductive Tok where
  | rangeTok (line col : Nat) (nodoc beginFlag : Bool) (reqs : List String)
  | lineTok (line col : Nat) (reqs : List String)
deriving Repr, DecidableEq

/-- The source line a token sits on. -/
def Tok.tokLine : Tok → Nat
  | .rangeTok l _ _ _ _ => l
  | .lineTok l _ _ => l

/-- Run the reader's per-token object processors over the token stream in
file order (textx invokes `range_marker_processor` /
`line_marker_processor` per parsed object; the first raised error aborts
the parse). -/
def process_markers (filename : Option String) :
    List Tok → ParseContext → Except ReadErr ParseContext
  | [], ctx => .ok ctx
  | .rangeTok l c nd bf rs :: rest, ctx =>
      match range_marker_processor filename l c nd bf rs ctx with
      | .ok ctx₁ => process_markers filename rest ctx₁
      | .error e => .error e
  | .lineTok l c rs :: rest, ctx =>
      match line_marker_processor filename l c rs ctx with
      | .ok ctx₁ => process_markers filename rest ctx₁
      | .error e => .error e

/-- Round half to even at integer precision (the tie-breaking rule of
Python's built-in `round`). -/
def roundHalfEven (q : ℚ) : Int :=
  let f := Rat.floor q
  let frac := q - (f : ℚ)
  if frac < 1 / 2 then f
  else if frac > 1 / 2 then f + 1
  else if f % 2 = 0 then f else f + 1

/-- Python `round(x, 1)`: round half to even at one decimal digit. -/
def pythonRound1 (q : ℚ) : ℚ :=
  (roundHalfEven (q * 10) : ℚ) / 10

/-- `SourceFileTraceabilityInfo` (models/source_file_info.py).  `markers`
and `ng_map_reqs_to_markers` are the attributes the reader assigns after
the parse (`info.markers = parse_context.markers`,
`info.ng_map_reqs_to_markers = parse_context.map_reqs_to_markers`); the
remaining fields are those of `__init__`, at their initial values until
`set_coverage_stats` runs. -/
structure SourceFileTraceabilityInfo where
  parts : List MarkerData
  ng_map_lines_to_pragmas : List (Nat × MarkerData) := []
  ng_map_reqs_to_pragmas : List (String × List MarkerData) := []
  ng_lines_total : Nat := 0
  ng_lines_covered : Int := 0
  _coverage : ℚ := 0
  pragmas : List MarkerData := []
  markers : List MarkerData := []
  ng_map_reqs_to_markers : List (String × List Nat) := []
deriving Repr, DecidableEq

/-- `SourceFileTraceabilityInfo.__init__(parts)`. -/
def SourceFileTraceabilityInfo.init (parts : List MarkerData) :
    SourceFileTraceabilityInfo :=
  { parts := parts }

/-- `SourceFileTraceabilityInfo.get_coverage`. -/
def SourceFileTraceabilityInfo.get_coverage (self : SourceFileTraceabilityInfo) : ℚ :=
  self._coverage

/-- `SourceFileTraceabilityInfo.set_coverage_stats(lines_total,
lines_covered)`: stores both counts and the percentage
`round(lines_covered / lines_total * 100, 1)`. -/
def SourceFileTraceabilityInfo.set_coverage_stats
    (self : SourceFileTraceabilityInfo) (lines_total : Nat)
    (lines_covered : Int) : SourceFileTraceabilityInfo :=
  { self with
    ng_lines_total := lines_total,
    ng_lines_covered := lines_covered,
    _coverage := pythonRound1 ((lines_covered : ℚ) / (lines_total : ℚ) * 100) }

/-- The merged-ranges loop of `source_file_traceability_info_processor`
(reader.py): walk the accepted markers in order, skip nodoc and non-begin
markers, take the resolved `[begin, end]` bounds (`assert_cast` fails when
a bound is unset), and either extend the last merged range (Python
`merged_ranges[-1]`, the head here) when `merged_ranges[-1][1] >= begin - 1`
or append a new one.  The accumulator keeps Python's last element first,
so the fully merged list is the accumulator reversed. -/
def merged_ranges_loop (arena : List MarkerData) :
    List Nat → List (Nat × Nat) → Except ReadErr (List (Nat × Nat))
  | [], merged => .ok merged
  | i :: rest, merged =>
      let marker := arenaGet arena i
      if marker.ng_is_nodoc then merged_ranges_loop arena rest merged
      else if !marker.is_begin then merged_ranges_loop arena rest merged
      else
        match marker.ng_range_line_begin, marker.ng_range_line_end with
        | some b, some e =>
            merged_ranges_loop arena rest
              (match merged with
               | [] => [(b, e)]
               | (lb, le) :: ms =>
                   if (le : Int) ≥ (b : Int) - 1 then (lb, max le e) :: ms
                   else (b, e) :: (lb, le) :: ms)
        | _, _ => .error .assertFail

/-- `coverage += merged_range[1] - merged_range[0] + 1` summed over the
merged ranges. -/
def coverage_sum (merged : List (Nat × Nat)) : Int :=
  (merged.map (fun r => (r.2 : Int) - (r.1 : Int) + 1)).sum

/-- `source_file_traceability_info_processor` (reader.py): raises
`UnmatchedRange` when the open-marker stack is non-empty (the Python list
`parse_context.marker_stack` has its bottom at index 0, i.e. the reverse
of our head-is-top stack), otherwise stores the accepted markers on the
info object and computes the coverage statistics.  `info` is the
textx-constructed `SourceFileTraceabilityInfo` (its raw `parts` are not
modelled). -/
def source_file_traceability_info_processor (filename : Option String)
    (info : SourceFileTraceabilityInfo) (ctx : ParseContext) :
    Except ReadErr SourceFileTraceabilityInfo :=
  if ctx.marker_stack.length > 0 then
    .error (.sem (create_unmatch_range_error filename
      ((ctx.marker_stack.reverse).map (arenaGet ctx.arena))))
  else
    let info := { info with markers := ctx.markers.map (arenaGet ctx.arena) }
    match merged_ranges_loop ctx.arena ctx.markers [] with
    | .error e => .error e
    | .ok merged =>
        .ok (info.set_coverage_stats ctx.lines_total (coverage_sum merged))

/-- `get_lines_count` (helpers/string.py).

Modelled from the spec: `strictdoc/helpers/string.py` is not under
`src/`; the spec only calls this the "total line count of the file", so
newline-separated lines are counted. -/
def get_lines_count (s : String) : Nat :=
  (s.data.filter (fun c => c = '\n')).length + 1

/-- `SourceFileTraceabilityReader.read(input_string, file_path)`
(reader.py): a zero-length input short-circuits to
`SourceFileTraceabilityInfo([])` before any parsing; otherwise the token
stream `toks` that scanning `input_string` yields (the textx scan itself
is not modelled, its grammar file being absent) is run through the object
processors, the end-of-parse processor computes the coverage statistics,
and the requirement index is copied onto the info object. -/
def read (input_string : String) (file_path : Option String)
    (toks : List Tok) : Except ReadErr SourceFileTraceabilityInfo :=
  if input_string.length = 0 then
    .ok (SourceFileTraceabilityInfo.init [])
  else
    let length := get_lines_count input_string
    let parse_context : ParseContext := { lines_total := length }
    match process_markers file_path toks parse_context with
    | .error e => .error e
    | .ok ctx =>
        match source_file_traceability_info_processor file_path
            (SourceFileTraceabilityInfo.init []) ctx with
        | .error e => .error e
        | .ok info =>
            .ok { info with ng_map_reqs_to_markers := ctx.map_reqs_to_markers }

/-- Python f-string rendering of an optional string (`None` prints as
`"None"`). -/
def pyFormatOptString (o : Option String) : String :=
  match o with
  | some s => s
  | none => "None"

/-- Python f-string rendering of an optional int. -/
def pyFormatOptNat (o : Option Nat) : String :=
  match o with
  | some n => toString n
  | none => "None"

/-- Python truthiness of an optional string: `None` and `""` are falsy. -/
def pyTruthy (o : Option String) : Bool :=
  match o with
  | some s => s.length > 0
  | none => false

/-- `StrictDocSemanticError.to_print_message` (error_handling.py). -/
def StrictDocSemanticError.to_print_message
    (self : StrictDocSemanticError) : String :=
  let message := ""
  let message := message ++ "error: could not parse file: "
    ++ pyFormatOptString self.file_path ++ ".\n"
  let message := message ++ "Semantic error: " ++ self.title ++ "\n"
  let message := message ++ "Location: " ++ pyFormatOptString self.file_path
    ++ ":" ++ pyFormatOptNat self.line ++ ":" ++ pyFormatOptNat self.col
  let message := if pyTruthy self.hint then
      message ++ "\nHint: " ++ self.hint.getD "" else message
  let message := if pyTruthy self.example_text then
      message ++ "\nExample:\n" ++ self.example_text.getD "" else message
  message

/-- Python whitespace, the character class `str.strip()` removes
(ASCII part). -/
def py_is_whitespace (c : Char) : Bool :=
  c = ' ' || c = '\t' || c = '\n' || c = '\r' || c = '\x0b' || c = '\x0c'

/-- Python `str.strip()`: drop leading and trailing whitespace. -/
def py_strip (s : String) : String :=
  String.mk (((s.data.dropWhile py_is_whitespace).reverse.dropWhile
    py_is_whitespace).reverse)

/-- The uid normalization of `Requirement.__init__`
(backend/dsl/models/requirement.py):
`uid.strip() if (isinstance(uid, str) and len(uid) > 0) else None`.
A non-string argument (including Python `None`) behaves like `none`. -/
def Requirement_uid (uid : Option String) : Option String :=
  match uid with
  | some s => if s.length > 0 then some (py_strip s) else none
  | none => none

/-- The role_uid normalization of `ParentReqReference.__init__`
(backend/sdoc/models/reference.py):
`role_uid if role_uid is not None and len(role_uid) > 0 else None`. -/
def ParentReqReference_role_uid (role_uid : Option String) : Option String :=
  match role_uid with
  | some s => if s.length > 0 then some s else none
  | none => none

/-- The considered ranges of the coverage computation: what remains of the
accepted marker list after the merge loop's filters (skip nodoc markers
and non-begin markers) and bound resolution, in file order. -/
def consideredRanges (ctx : ParseContext) : List (Nat × Nat) :=
  ctx.markers.filterMap (fun i =>
    let m := arenaGet ctx.arena i
    if m.ng_is_nodoc then none
    else if !m.is_begin then none
    else match m.ng_range_line_begin, m.ng_range_line_end with
      | some b, some e => some (b, e)
      | _, _ => none)

/-- Every accepted non-nodoc begin marker has both range bounds resolved
(the property the reader's `assert_cast` calls assert). -/
def markersResolved (ctx : ParseContext) : Prop :=
  ∀ i ∈ ctx.markers,
    ((!(arenaGet ctx.arena i).ng_is_nodoc) && (arenaGet ctx.arena i).is_begin) = true →
      (arenaGet ctx.arena i).ng_range_line_begin.isSome = true ∧
      (arenaGet ctx.arena i).ng_range_line_end.isSome = true

instance markersResolvedDecidable (ctx : ParseContext) :
    Decidable (markersResolved ctx) :=
  inferInstanceAs (Decidable (∀ i ∈ ctx.markers,
    ((!(arenaGet ctx.arena i).ng_is_nodoc) && (arenaGet ctx.arena i).is_begin) = true →
      (arenaGet ctx.arena i).ng_range_line_begin.isSome = true
      ∧ (arenaGet ctx.arena i).ng_range_line_end.isSome = true))

/-- The coverage merge rule in the spec's own words, for the refinement
comparison with the code's `merged_ranges_loop`: "if the next range's
begin ≤ current merged end + 1, extend the merged end to max(current,
next end); otherwise start a new merged interval".  The current merged
interval is kept at the head. -/
def spec_merge_fold (rs : List (Nat × Nat)) : List (Nat × Nat) :=
  rs.foldl (fun merged r =>
    match merged with
    | [] => [r]
    | (cb, ce) :: ms =>
        if r.1 ≤ ce + 1 then (cb, max ce r.2) :: ms
        else r :: (cb, ce) :: ms) []

/-- The merged intervals in file order, per the spec's rule. -/
def spec_merged (rs : List (Nat × Nat)) : List (Nat × Nat) :=
  (spec_merge_fold rs).reverse

/-- The spec's covered-line count: sum of `(end - begin + 1)` over the
merged intervals. -/
def spec_covered (rs : List (Nat × Nat)) : Int :=
  coverage_sum (spec_merged rs)

/-- A range marker with the begin flag (an accepted BEGIN). -/
def isRangeBegin (m : MarkerData) : Bool :=
  !m.is_line && m.begin_flag

/-- A range marker without the begin flag (an accepted END). -/
def isRangeEnd (m : MarkerData) : Bool :=
  !m.is_line && !m.begin_flag

/-- The accepted BEGIN markers (as arena indices) of the output list. -/
def acceptedBegins (ctx : ParseContext) : List Nat :=
  ctx.markers.filter (fun i => isRangeBegin (arenaGet ctx.arena i))

/-- The accepted END markers (as arena indices) of the output list. -/
def acceptedEnds (ctx : ParseContext) : List Nat :=
  ctx.markers.filter (fun i => isRangeEnd (arenaGet ctx.arena i))

/-- The non-nodoc (ordinary) markers still open on the stack. -/
def openOrdinary (ctx : ParseContext) : List Nat :=
  ctx.marker_stack.filter (fun i => !(arenaGet ctx.arena i).ng_is_nodoc)

/-- Both range bounds are resolved and in order. -/
def hasResolvedRange (m : MarkerData) : Bool :=
  match m.ng_range_line_begin, m.ng_range_line_end with
  | some b, some e => decide (b ≤ e)
  | _, _ => false

/-- Tokens appear in file order: their line numbers never decrease. -/
def linesMono (toks : List Tok) : Prop :=
  List.Chain' (fun a b => a.tokLine ≤ b.tokLine) toks

instance linesMonoDecidable (toks : List Tok) : Decidable (linesMono toks) :=
  inferInstanceAs (Decidable (List.Chain' (fun a b : Tok => a.tokLine ≤ b.tokLine) toks))

/-- The state invariant of the marker matching automaton, at line
watermark `w` (every token processed so far sat on a line `≤ w`):
stack and output indices are in bounds, the stack holds begin range
markers with strictly decreasing (most recent first) indices, every open
ordinary marker is accepted with a resolved begin bound, accepted BEGINs
and ENDs balance against the open ordinary markers, every closed accepted
BEGIN carries a resolved in-order range, and every accepted END shares
its recorded range with a closed accepted BEGIN. -/
structure Inv (ctx : ParseContext) (w : Nat) : Prop where
  stack_lt : ∀ i ∈ ctx.marker_stack, i < ctx.arena.length
  markers_lt : ∀ i ∈ ctx.markers, i < ctx.arena.length
  markers_ordinary : ∀ i ∈ ctx.markers, (arenaGet ctx.arena i).ng_is_nodoc = false
  stack_dec : ctx.marker_stack.Pairwise (fun a b => b < a)
  stack_range : ∀ i ∈ ctx.marker_stack,
    (arenaGet ctx.arena i).is_line = false ∧ (arenaGet ctx.arena i).begin_flag = true
  stack_open : ∀ i ∈ ctx.marker_stack, (arenaGet ctx.arena i).ng_is_nodoc = false →
    i ∈ ctx.markers ∧ ∃ b, (arenaGet ctx.arena i).ng_range_line_begin = some b ∧ b ≤ w
      ∧ (arenaGet ctx.arena i).ng_range_line_end = none
  count_eq : (acceptedBegins ctx).length = (acceptedEnds ctx).length + (openOrdinary ctx).length
  begins_resolved : ∀ i ∈ ctx.markers, isRangeBegin (arenaGet ctx.arena i) = true →
    i ∉ ctx.marker_stack → hasResolvedRange (arenaGet ctx.arena i) = true
  ends_paired : ∀ i ∈ ctx.markers, isRangeEnd (arenaGet ctx.arena i) = true →
    ∃ j, j ∈ ctx.markers ∧ j ∉ ctx.marker_stack
      ∧ isRangeBegin (arenaGet ctx.arena j) = true
      ∧ (arenaGet ctx.arena j).ng_range_line_begin = (arenaGet ctx.arena i).ng_range_line_begin
      ∧ (arenaGet ctx.arena j).ng_range_line_end = (arenaGet ctx.arena i).ng_range_line_end

/-- Absence of leading and trailing Python whitespace. -/
def no_edge_whitespace (s : String) : Bool :=
  (match s.data.head? with
   | some c => !py_is_whitespace c
   | none => true) &&
  (match s.data.getLast? with
   | some c => !py_is_whitespace c
   | none => true)

/-- The parse context reached after processing a BEGIN for REQ-1 at line
2, a line marker for REQ-2 at line 3 and the matching END at line 4; a
concrete successfully matched parse used as an example. -/
def exampleMatchedCtx : ParseContext :=
  { lines_total := 5,
    arena := [{ is_line := false, ng_is_nodoc := false, begin_flag := true,
                reqs := ["REQ-1"], loc_line := 2, loc_col := 1,
                ng_source_line_begin := some 2, ng_range_line_begin := some 2,
                ng_range_line_end := some 4 },
              { is_line := true, ng_is_nodoc := false, begin_flag := true,
                reqs := ["REQ-2"], loc_line := 3, loc_col := 1,
                ng_source_line_begin := some 3, ng_range_line_begin := some 3,
                ng_range_line_end := some 3 },
              { is_line := false, ng_is_nodoc := false, begin_flag := false,
                reqs := ["REQ-1"], loc_line := 4, loc_col := 1,
                ng_source_line_begin := some 4, ng_range_line_begin := some 2,
                ng_range_line_end := some 4 }],
    markers := [0, 1, 2], marker_stack := [],
    map_reqs_to_markers := [("REQ-1", [0]), ("REQ-2", [1])] }

theorem arenaGet_append_lt (l l' : List MarkerData) (i : Nat) (h : i < l.length) :
    arenaGet (l ++ l') i = arenaGet l i :=
  List.getD_append l l' dummyMarker i h

theorem arenaGet_append_self (l : List MarkerData) (m : MarkerData) :
    arenaGet (l ++ [m]) l.length = m := by
  simp [arenaGet, List.getD_append_right l [m] dummyMarker l.length (Nat.le_refl _)]

theorem arenaGet_set_ne (l : List MarkerData) (i j : Nat) (m : MarkerData)
    (h : i ≠ j) : arenaGet (l.set i m) j = arenaGet l j := by
  induction l generalizing i j with
  | nil => simp [List.set]
  | cons x xs ih =>
      cases i with
      | zero =>
          cases j with
          | zero => exact absurd rfl h
          | succ n => simp [arenaGet, List.set]
      | succ p =>
          cases j with
          | zero => simp [arenaGet, List.set]
          | succ n =>
              simpa [arenaGet, List.set] using ih p n (fun hc => h (by omega))

theorem set_append_length (l : List MarkerData) (a b : MarkerData) :
    (l ++ [a]).set l.length b = l ++ [b] := by
  induction l with
  | nil => rfl
  | cons x xs ih => simp [List.set, ih]

theorem set_append_left (l l' : List MarkerData) (i : Nat) (h : i < l.length)
    (x : MarkerData) : (l ++ l').set i x = l.set i x ++ l' := by
  induction l generalizing i with
  | nil => simp at h
  | cons y ys ih =>
      cases i with
      | zero => rfl
      | succ n => simpa [List.set] using ih n (by simpa using h)

/-- C5: an END range marker token (ordinary or nodoc) processed while the
open-marker stack is empty raises EndWithoutBegin carrying the token's
line, column and file. -/
theorem end_without_begin_on_empty_stack
    (filename : Option String) (tokLine tokCol : Nat) (nodoc : Bool)
    (reqs : List String) (ctx : ParseContext)
    (hstack : ctx.marker_stack = []) :
    range_marker_processor filename tokLine tokCol nodoc false reqs ctx
      = .error (.sem (create_end_without_begin_error ⟨tokLine, tokCol, filename⟩))
    ∧ (create_end_without_begin_error ⟨tokLine, tokCol, filename⟩).line = some tokLine
    ∧ (create_end_without_begin_error ⟨tokLine, tokCol, filename⟩).col = some tokCol
    ∧ (create_end_without_begin_error ⟨tokLine, tokCol, filename⟩).file_path = filename := by
  refine ⟨?_, rfl, rfl, rfl⟩
  cases nodoc <;>
    simp [range_marker_processor, MarkerData.is_begin, MarkerData.is_end, hstack]

theorem end_without_begin_on_empty_stack_witness :
    ({ lines_total := 5 } : ParseContext).marker_stack = []
    ∧ range_marker_processor none 3 2 false false ["REQ-1"] { lines_total := 5 }
        = .error (.sem (create_end_without_begin_error ⟨3, 2, none⟩)) :=
  ⟨rfl, (end_without_begin_on_empty_stack none 3 2 false ["REQ-1"] _ rfl).1⟩

/-- C7: reading a zero-length input short-circuits to
`SourceFileTraceabilityInfo([])`: no markers, and the coverage fields
still hold their `__init__` values because `set_coverage_stats` (the only
place that divides by the total line count) is never reached, so no
ZeroDivisionError can occur. -/
theorem read_zero_length_input (file_path : Option String) (toks : List Tok) :
    read "" file_path toks = .ok (SourceFileTraceabilityInfo.init [])
    ∧ (SourceFileTraceabilityInfo.init []).markers = []
    ∧ (SourceFileTraceabilityInfo.init []).ng_lines_total = 0
    ∧ (SourceFileTraceabilityInfo.init []).ng_lines_covered = 0
    ∧ (SourceFileTraceabilityInfo.init [])._coverage = 0 :=
  ⟨rfl, rfl, rfl, rfl, rfl⟩

theorem string_length_pos_of_ne (s : String) (h : s ≠ "") : 0 < s.length := by
  cases s with
  | mk d =>
      cases d with
      | nil => exact absurd rfl h
      | cons a t => simp [String.length]

/-- C8 counterexample: the rendering claimed by the spec (no `error: `
prefix, `. ` between the path and `Semantic error`) differs from what
`to_print_message` produces at a concrete error. -/
theorem to_print_message_counterexample :
    StrictDocSemanticError.to_print_message
      { title := "Title", hint := none, example_text := none,
        line := some 1, col := some 2, file_path := some "f.py" }
      ≠ "could not parse file: f.py. Semantic error: Title\nLocation: f.py:1:2" := by
  decide

/-- C8 amended: `to_print_message` renders
`"error: could not parse file: <path>.\nSemantic error: <title>\nLocation:
<path>:<line>:<col>"`, followed by `"\nHint: <hint>"` exactly when a
(non-empty) hint is present and `"\nExample:\n<example>"` exactly when a
(non-empty) example is present. -/
theorem to_print_message_format (p t h ex : String) (l c : Nat)
    (hh : h ≠ "") (hex : ex ≠ "") :
    StrictDocSemanticError.to_print_message
        { title := t, hint := some h, example_text := some ex,
          line := some l, col := some c, file_path := some p }
      = "error: could not parse file: " ++ p ++ ".\nSemantic error: " ++ t
        ++ "\nLocation: " ++ p ++ ":" ++ toString l ++ ":" ++ toString c
        ++ "\nHint: " ++ h ++ "\nExample:\n" ++ ex
    ∧ StrictDocSemanticError.to_print_message
        { title := t, hint := none, example_text := none,
          line := some l, col := some c, file_path := some p }
      = "error: could not parse file: " ++ p ++ ".\nSemantic error: " ++ t
        ++ "\nLocation: " ++ p ++ ":" ++ toString l ++ ":" ++ toString c
    ∧ StrictDocSemanticError.to_print_message
        { title := t, hint := some h, example_text := none,
          line := some l, col := some c, file_path := some p }
      = "error: could not parse file: " ++ p ++ ".\nSemantic error: " ++ t
        ++ "\nLocation: " ++ p ++ ":" ++ toString l ++ ":" ++ toString c
        ++ "\nHint: " ++ h
    ∧ StrictDocSemanticError.to_print_message
        { title := t, hint := none, example_text := some ex,
          line := some l, col := some c, file_path := some p }
      = "error: could not parse file: " ++ p ++ ".\nSemantic error: " ++ t
        ++ "\nLocation: " ++ p ++ ":" ++ toString l ++ ":" ++ toString c
        ++ "\nExample:\n" ++ ex := by
  have hh₁ := string_length_pos_of_ne h hh
  have hex₁ := string_length_pos_of_ne ex hex
  refine ⟨?_, ?_, ?_, ?_⟩ <;>
    simp [StrictDocSemanticError.to_print_message, pyTruthy, pyFormatOptString,
      pyFormatOptNat, hh₁, hex₁, String.append_assoc]

theorem to_print_message_format_witness :
    ("H" : String) ≠ "" ∧ ("E" : String) ≠ ""
    ∧ StrictDocSemanticError.to_print_message
        { title := "T", hint := some "H", example_text := some "E",
          line := some 1, col := some 2, file_path := some "f.py" }
      = "error: could not parse file: " ++ "f.py" ++ ".\nSemantic error: " ++ "T"
        ++ "\nLocation: " ++ "f.py" ++ ":" ++ toString 1 ++ ":" ++ toString 2
        ++ "\nHint: " ++ "H" ++ "\nExample:\n" ++ "E" :=
  ⟨by decide, by decide,
    (to_print_message_format "f.py" "T" "H" "E" 1 2 (by decide) (by decide)).1⟩

theorem dropWhile_head_not (p : Char → Bool) (l : List Char) :
    ∀ c, (l.dropWhile p).head? = some c → p c = false := by
  induction l with
  | nil => intro c hc; simp [List.dropWhile] at hc
  | cons a t ih =>
      intro c hc
      by_cases hp : p a
      · rw [show (a :: t).dropWhile p = t.dropWhile p by simp [List.dropWhile, hp]] at hc
        exact ih c hc
      · rw [show (a :: t).dropWhile p = a :: t by simp [List.dropWhile, hp]] at hc
        simp at hc
        subst hc
        simpa using hp

theorem getLast?_dropWhile (p : Char → Bool) (l : List Char)
    (h : l.dropWhile p ≠ []) : (l.dropWhile p).getLast? = l.getLast? := by
  induction l with
  | nil => simp [List.dropWhile] at h
  | cons a t ih =>
      by_cases hp : p a
      · have hd : (a :: t).dropWhile p = t.dropWhile p := by simp [List.dropWhile, hp]
        rw [hd] at h ⊢
        rw [ih h]
        have ht : t ≠ [] := by
          intro he
          subst he
          simp [List.dropWhile] at h
        cases t with
        | nil => exact absurd rfl ht
        | cons b u => simp [List.getLast?_cons_cons]
      · rw [show (a :: t).dropWhile p = a :: t by simp [List.dropWhile, hp]]

theorem py_strip_no_edge (s : String) : no_edge_whitespace (py_strip s) = true := by
  unfold py_strip no_edge_whitespace
  have h1 : ∀ c,
      ((s.data.dropWhile py_is_whitespace).reverse.dropWhile py_is_whitespace).head?
        = some c → py_is_whitespace c = false :=
    dropWhile_head_not _ _
  have h2 : ∀ c,
      ((s.data.dropWhile py_is_whitespace).reverse.dropWhile py_is_whitespace).getLast?
        = some c → py_is_whitespace c = false := by
    intro c hc
    have hm_ne :
        (s.data.dropWhile py_is_whitespace).reverse.dropWhile py_is_whitespace ≠ [] := by
      intro he
      rw [he] at hc
      simp at hc
    rw [getLast?_dropWhile _ _ hm_ne, List.getLast?_reverse] at hc
    exact dropWhile_head_not _ _ c hc
  rw [show (String.mk
      (((s.data.dropWhile py_is_whitespace).reverse.dropWhile
        py_is_whitespace).reverse)).data
    = ((s.data.dropWhile py_is_whitespace).reverse.dropWhile
        py_is_whitespace).reverse from rfl]
  rw [List.head?_reverse, List.getLast?_reverse]
  cases h3 : ((s.data.dropWhile py_is_whitespace).reverse.dropWhile
      py_is_whitespace).getLast? with
  | none =>
      cases h4 : ((s.data.dropWhile py_is_whitespace).reverse.dropWhile
          py_is_whitespace).head? with
      | none => simp
      | some d => simp [h1 d h4]
  | some c =>
      cases h4 : ((s.data.dropWhile py_is_whitespace).reverse.dropWhile
          py_is_whitespace).head? with
      | none => simp [h2 c h3]
      | some d => simp [h1 d h4, h2 c h3]

/-- C9 counterexample: a whitespace-only uid argument yields a
present-but-empty uid (`some ""`), falsifying "the resulting uid is either
None or a non-empty string". -/
theorem requirement_uid_whitespace_counterexample :
    Requirement_uid (some " ") = some ""
    ∧ ¬ (∀ uid s, Requirement_uid uid = some s → s ≠ "") := by
  constructor
  · decide
  · intro hcl
    exact hcl (some " ") "" (by decide) rfl

/-- C9 amended: the uid attribute is either None or the stripped argument
string, which carries no leading or trailing whitespace but may be empty
when the argument was whitespace-only. -/
theorem requirement_uid_stripped (uid : Option String) (s : String)
    (h : Requirement_uid uid = some s) : no_edge_whitespace s = true := by
  match uid with
  | none => simp [Requirement_uid] at h
  | some t =>
      simp only [Requirement_uid] at h
      split at h
      · rw [Option.some_inj] at h
        subst h
        exact py_strip_no_edge t
      · simp at h

theorem requirement_uid_stripped_witness :
    Requirement_uid (some "  A ") = some "A" ∧ no_edge_whitespace "A" = true :=
  ⟨by decide, requirement_uid_stripped (some "  A ") "A" (by decide)⟩

/-- C10: the role_uid attribute is either None or a non-empty string; an
empty-string role_uid from the parser is normalized to None. -/
theorem parent_req_reference_role_uid_normalized :
    (∀ role_uid s, ParentReqReference_role_uid role_uid = some s → s ≠ "")
    ∧ ParentReqReference_role_uid (some "") = none
    ∧ ParentReqReference_role_uid none = none := by
  refine ⟨?_, rfl, rfl⟩
  intro ru s h hs
  subst hs
  match ru with
  | none => simp [ParentReqReference_role_uid] at h
  | some t =>
      simp only [ParentReqReference_role_uid] at h
      split at h
      · next hlen =>
          rw [Option.some_inj] at h
          subst h
          simp [String.length] at hlen
      · simp at h

theorem parent_req_reference_role_uid_normalized_witness :
    ParentReqReference_role_uid (some "Role1") = some "Role1"
    ∧ ("Role1" : String) ≠ "" :=
  ⟨rfl, parent_req_reference_role_uid_normalized.1 (some "Role1") "Role1" rfl⟩

/-- C1: an ordinary END range marker processed while the stack is
non-empty (and not suppressed by a nodoc top) raises
BeginEndRangeReqsMismatch exactly when its requirement-id list differs,
as an ordered list, from the popped BEGIN marker's; the error's hint
reports both id lists. -/
theorem ordinary_end_reqs_mismatch_iff
    (filename : Option String) (tokLine tokCol : Nat) (reqs : List String)
    (ctx : ParseContext) (topIdx : Nat) (rest : List Nat)
    (hstack : ctx.marker_stack = topIdx :: rest)
    (hlt : topIdx < ctx.arena.length)
    (htop : (arenaGet ctx.arena topIdx).ng_is_nodoc = false) :
    (range_marker_processor filename tokLine tokCol false false reqs ctx
        = .error (.sem (create_begin_end_range_reqs_mismatch_error
            ⟨tokLine, tokCol, filename⟩ (arenaGet ctx.arena topIdx).reqs reqs))
      ↔ reqs ≠ (arenaGet ctx.arena topIdx).reqs)
    ∧ (create_begin_end_range_reqs_mismatch_error ⟨tokLine, tokCol, filename⟩
          (arenaGet ctx.arena topIdx).reqs reqs).hint
        = some ("STRICT RANGE marker should START and END "
            ++ "with the same requirement(s): "
            ++ "\x27" ++ String.intercalate ", " (arenaGet ctx.arena topIdx).reqs
            ++ "\x27 != \x27" ++ String.intercalate ", " reqs ++ "\x27.") := by
  refine ⟨?_, rfl⟩
  simp only [range_marker_processor, MarkerData.is_begin, MarkerData.is_end, hstack]
  rw [arenaGet_append_lt _ _ _ hlt]
  simp only [htop]
  by_cases hr : reqs = (arenaGet ctx.arena topIdx).reqs
  · simp [hr]
  · simp [hr]

theorem ordinary_end_reqs_mismatch_iff_witness :
    range_marker_processor none 4 1 false false ["REQ-1", "REQ-2"]
      { lines_total := 10,
        arena := [{ is_line := false, ng_is_nodoc := false, begin_flag := true,
                    reqs := ["REQ-2", "REQ-1"], loc_line := 2, loc_col := 1,
                    ng_source_line_begin := some 2, ng_range_line_begin := some 2 }],
        markers := [0], marker_stack := [0],
        map_reqs_to_markers := [("REQ-2", [0]), ("REQ-1", [0])] }
      = .error (.sem (create_begin_end_range_reqs_mismatch_error ⟨4, 1, none⟩
          ["REQ-2", "REQ-1"] ["REQ-1", "REQ-2"])) :=
  (ordinary_end_reqs_mismatch_iff none 4 1 ["REQ-1", "REQ-2"]
    { lines_total := 10,
      arena := [{ is_line := false, ng_is_nodoc := false, begin_flag := true,
                  reqs := ["REQ-2", "REQ-1"], loc_line := 2, loc_col := 1,
                  ng_source_line_begin := some 2, ng_range_line_begin := some 2 }],
      markers := [0], marker_stack := [0],
      map_reqs_to_markers := [("REQ-2", [0]), ("REQ-1", [0])] }
    0 [] rfl (by decide) rfl).1.mpr (by decide)

/-- C3: ordinary markers (range or line) processed while the stack top is
a nodoc-begin marker are dropped: the processor succeeds and leaves the
output marker list, the requirement-to-marker index and the stack
unchanged. -/
theorem nodoc_block_suppresses_markers
    (filename : Option String) (tokLine tokCol : Nat) (beginFlag : Bool)
    (reqs : List String) (ctx : ParseContext) (topIdx : Nat) (rest : List Nat)
    (hstack : ctx.marker_stack = topIdx :: rest)
    (hlt : topIdx < ctx.arena.length)
    (htop : (arenaGet ctx.arena topIdx).ng_is_nodoc = true) :
    (∃ ctx₁, range_marker_processor filename tokLine tokCol false beginFlag reqs ctx = .ok ctx₁
      ∧ ctx₁.markers = ctx.markers
      ∧ ctx₁.map_reqs_to_markers = ctx.map_reqs_to_markers
      ∧ ctx₁.marker_stack = ctx.marker_stack)
    ∧ (∃ ctx₂, line_marker_processor filename tokLine tokCol reqs ctx = .ok ctx₂
      ∧ ctx₂.markers = ctx.markers
      ∧ ctx₂.map_reqs_to_markers = ctx.map_reqs_to_markers
      ∧ ctx₂.marker_stack = ctx.marker_stack) := by
  constructor
  · refine ⟨{ ctx with arena := ctx.arena ++
        [{ is_line := false, ng_is_nodoc := false, begin_flag := beginFlag,
           reqs := reqs, loc_line := tokLine, loc_col := tokCol }] },
      ?_, rfl, rfl, rfl⟩
    simp only [range_marker_processor, MarkerData.is_begin, MarkerData.is_end, hstack]
    rw [arenaGet_append_lt _ _ _ hlt]
    simp [htop]
  · refine ⟨{ ctx with arena := ctx.arena ++
        [{ is_line := true, ng_is_nodoc := false, begin_flag := true,
           reqs := reqs, loc_line := tokLine, loc_col := tokCol }] },
      ?_, rfl, rfl, rfl⟩
    simp only [line_marker_processor, hstack]
    rw [arenaGet_append_lt _ _ _ hlt]
    simp [htop]

theorem nodoc_block_suppresses_markers_witness :
    ((∃ ctx₁, range_marker_processor none 2 1 false true ["REQ-9"]
        { lines_total := 3,
          arena := [{ is_line := false, ng_is_nodoc := true, begin_flag := true,
                      reqs := [], loc_line := 1, loc_col := 1 }],
          markers := [], marker_stack := [0], map_reqs_to_markers := [] } = .ok ctx₁
      ∧ ctx₁.markers = []
      ∧ ctx₁.map_reqs_to_markers = []
      ∧ ctx₁.marker_stack = [0])
    ∧ (∃ ctx₂, line_marker_processor none 2 1 ["REQ-9"]
        { lines_total := 3,
          arena := [{ is_line := false, ng_is_nodoc := true, begin_flag := true,
                      reqs := [], loc_line := 1, loc_col := 1 }],
          markers := [], marker_stack := [0], map_reqs_to_markers := [] } = .ok ctx₂
      ∧ ctx₂.markers = []
      ∧ ctx₂.map_reqs_to_markers = []
      ∧ ctx₂.marker_stack = [0]))
    ∧ (match process_markers none
        [.rangeTok 1 1 true true [], .lineTok 2 1 ["REQ-9"], .rangeTok 3 1 true false []]
        { lines_total := 3 } with
       | .ok c => some (c.map_reqs_to_markers, c.markers)
       | .error _ => none) = some ([], []) :=
  ⟨nodoc_block_suppresses_markers none 2 1 true ["REQ-9"]
    { lines_total := 3,
      arena := [{ is_line := false, ng_is_nodoc := true, begin_flag := true,
                  reqs := [], loc_line := 1, loc_col := 1 }],
      markers := [], marker_stack := [0], map_reqs_to_markers := [] }
    0 [] rfl (by decide) rfl, rfl⟩

/-- C2: at end of input with a non-empty open-marker stack, the processor
raises UnmatchedRange located at the earliest-opened unmatched marker
(the bottom of the stack); the hint is absent when exactly one marker is
open and otherwise lists the line numbers of the other open markers. -/
theorem unmatched_range_reports_earliest
    (filename : Option String) (info : SourceFileTraceabilityInfo)
    (ctx : ParseContext) (h : ctx.marker_stack ≠ []) :
    ∃ e, source_file_traceability_info_processor filename info ctx = .error (.sem e)
      ∧ e.title = "Unmatched @sdoc keyword found in source file."
      ∧ e.line = some ((arenaGet ctx.arena (ctx.marker_stack.getLast h)).loc_line)
      ∧ e.col = some ((arenaGet ctx.arena (ctx.marker_stack.getLast h)).loc_col)
      ∧ (ctx.marker_stack.length = 1 → e.hint = none)
      ∧ (1 < ctx.marker_stack.length →
          e.hint = some ("The @sdoc keywords are also unmatched on lines: "
            ++ pyListRepr ((ctx.marker_stack.reverse.drop 1).map
                 (fun i => (arenaGet ctx.arena i).loc_line)) ++ ".")) := by
  have hlen : 0 < ctx.marker_stack.length := List.length_pos.mpr h
  have hrevne : ctx.marker_stack.reverse ≠ [] := by simpa using h
  obtain ⟨a, tl, hrev⟩ : ∃ a tl, ctx.marker_stack.reverse = a :: tl := by
    cases hx : ctx.marker_stack.reverse with
    | nil => exact absurd hx hrevne
    | cons a tl => exact ⟨a, tl, rfl⟩
  have hlast : ctx.marker_stack.getLast h = a := by
    have h1 := List.head?_reverse ctx.marker_stack
    rw [hrev, List.getLast?_eq_getLast _ h] at h1
    exact (Option.some_inj.mp h1).symm
  have hlen2 : ctx.marker_stack.length = tl.length + 1 := by
    have h2 := congrArg List.length hrev
    simpa using h2
  refine ⟨create_unmatch_range_error filename
      ((ctx.marker_stack.reverse).map (arenaGet ctx.arena)), ?_, rfl, ?_, ?_, ?_, ?_⟩
  · simp [source_file_traceability_info_processor, hlen]
  · rw [hlast, hrev]
    simp [create_unmatch_range_error]
  · rw [hlast, hrev]
    simp [create_unmatch_range_error]
  · intro h1
    rw [hrev]
    have htl : tl.length = 0 := by omega
    simp [create_unmatch_range_error, htl]
  · intro h1
    rw [hrev]
    have htl : 0 < tl.length := by omega
    simp only [create_unmatch_range_error, pyListRepr, List.map_map, List.drop_succ_cons,
      List.drop_zero, List.length_map, List.length_cons]
    have hcond : tl.length + 1 > 1 := by omega
    simp only [hcond, if_true, reduceIte]
    have hmaps : List.map (toString ∘ Loc.line)
        (List.drop 1 (List.map
          ((fun m => (⟨m.loc_line, m.loc_col, filename⟩ : Loc)) ∘ arenaGet ctx.arena) (a :: tl)))
        = List.map (toString ∘ fun i => (arenaGet ctx.arena i).loc_line) tl := by
      simp [List.map_map, Function.comp]
    rw [hmaps]

theorem unmatched_range_reports_earliest_witness :
    ∃ e, source_file_traceability_info_processor none (SourceFileTraceabilityInfo.init [])
        { lines_total := 9,
          arena := [{ is_line := false, ng_is_nodoc := false, begin_flag := true,
                      reqs := ["REQ-1"], loc_line := 2, loc_col := 1,
                      ng_source_line_begin := some 2, ng_range_line_begin := some 2 },
                    { is_line := false, ng_is_nodoc := false, begin_flag := true,
                      reqs := ["REQ-2"], loc_line := 5, loc_col := 1,
                      ng_source_line_begin := some 5, ng_range_line_begin := some 5 }],
          markers := [0, 1], marker_stack := [1, 0],
          map_reqs_to_markers := [("REQ-1", [0]), ("REQ-2", [1])] }
      = .error (.sem e)
      ∧ e.line = some 2
      ∧ e.hint = some "The @sdoc keywords are also unmatched on lines: [5]." := by
  obtain ⟨e, h1, _, h3, _, _, h6⟩ := unmatched_range_reports_earliest none
    (SourceFileTraceabilityInfo.init [])
    { lines_total := 9,
      arena := [{ is_line := false, ng_is_nodoc := false, begin_flag := true,
                  reqs := ["REQ-1"], loc_line := 2, loc_col := 1,
                  ng_source_line_begin := some 2, ng_range_line_begin := some 2 },
                { is_line := false, ng_is_nodoc := false, begin_flag := true,
                  reqs := ["REQ-2"], loc_line := 5, loc_col := 1,
                  ng_source_line_begin := some 5, ng_range_line_begin := some 5 }],
      markers := [0, 1], marker_stack := [1, 0],
      map_reqs_to_markers := [("REQ-1", [0]), ("REQ-2", [1])] }
    (by decide)
  refine ⟨e, h1, ?_, ?_⟩
  · rw [h3]
    decide
  · rw [h6 (by decide)]
    decide

theorem coverage_sum_reverse (l : List (Nat × Nat)) :
    coverage_sum l.reverse = coverage_sum l := by
  simp [coverage_sum, List.map_reverse, List.sum_reverse]

theorem merged_ranges_loop_spec (arena : List MarkerData) (idxs : List Nat)
    (hres : ∀ i ∈ idxs,
      ((!(arenaGet arena i).ng_is_nodoc) && (arenaGet arena i).is_begin) = true →
        (arenaGet arena i).ng_range_line_begin.isSome = true
        ∧ (arenaGet arena i).ng_range_line_end.isSome = true)
    (acc : List (Nat × Nat)) :
    merged_ranges_loop arena idxs acc = .ok
      ((idxs.filterMap (fun i =>
        let m := arenaGet arena i
        if m.ng_is_nodoc then none
        else if !m.is_begin then none
        else match m.ng_range_line_begin, m.ng_range_line_end with
          | some b, some e => some (b, e)
          | _, _ => none)).foldl
        (fun merged r =>
          match merged with
          | [] => [r]
          | (cb, ce) :: ms =>
              if r.1 ≤ ce + 1 then (cb, max ce r.2) :: ms
              else r :: (cb, ce) :: ms) acc) := by
  induction idxs generalizing acc with
  | nil => simp [merged_ranges_loop]
  | cons i rest ih =>
      have hres_rest : ∀ j ∈ rest,
          ((!(arenaGet arena j).ng_is_nodoc) && (arenaGet arena j).is_begin) = true →
            (arenaGet arena j).ng_range_line_begin.isSome = true
            ∧ (arenaGet arena j).ng_range_line_end.isSome = true :=
        fun j hj => hres j (List.mem_cons_of_mem i hj)
      cases hnod : (arenaGet arena i).ng_is_nodoc with
      | true =>
          rw [show merged_ranges_loop arena (i :: rest) acc
              = merged_ranges_loop arena rest acc by
            simp [merged_ranges_loop, hnod]]
          rw [ih hres_rest]
          simp [hnod]
      | false =>
          cases hb : (arenaGet arena i).is_begin with
          | false =>
              rw [show merged_ranges_loop arena (i :: rest) acc
                  = merged_ranges_loop arena rest acc by
                simp [merged_ranges_loop, hnod, hb]]
              rw [ih hres_rest]
              simp [hnod, hb]
          | true =>
              obtain ⟨h1, h2⟩ := hres i (List.mem_cons_self i rest) (by simp [hnod, hb])
              obtain ⟨b, hb1⟩ := Option.isSome_iff_exists.mp h1
              obtain ⟨e, he1⟩ := Option.isSome_iff_exists.mp h2
              have hstep : merged_ranges_loop arena (i :: rest) acc
                  = merged_ranges_loop arena rest
                      (match acc with
                       | [] => [(b, e)]
                       | (lb, le) :: ms =>
                           if (le : Int) ≥ (b : Int) - 1 then (lb, max le e) :: ms
                           else (b, e) :: (lb, le) :: ms) := by
                simp [merged_ranges_loop, hnod, hb, hb1, he1]
              rw [hstep, ih hres_rest]
              have hfm : (List.filterMap (fun i =>
                  let m := arenaGet arena i
                  if m.ng_is_nodoc then none
                  else if !m.is_begin then none
                  else match m.ng_range_line_begin, m.ng_range_line_end with
                    | some b, some e => some (b, e)
                    | _, _ => none) (i :: rest))
                  = (b, e) :: (List.filterMap (fun i =>
                  let m := arenaGet arena i
                  if m.ng_is_nodoc then none
                  else if !m.is_begin then none
                  else match m.ng_range_line_begin, m.ng_range_line_end with
                    | some b, some e => some (b, e)
                    | _, _ => none) rest) := by
                simp [List.filterMap_cons, hnod, hb, hb1, he1]
              rw [hfm]
              congr 1
              cases acc with
              | nil => rfl
              | cons p ms =>
                  obtain ⟨lb, le⟩ := p
                  by_cases hc : b ≤ le + 1
                  · have hci : (b : Int) ≤ (le : Int) + 1 := by omega
                    simp [hc, hci]
                  · have hci : ¬((b : Int) ≤ (le : Int) + 1) := by omega
                    simp [hc, hci]

/-- C4: on a successfully matched marker list, the coverage calculator
merges a range into the current merged interval exactly when its begin is
≤ the merged end + 1 (extending the end to the maximum of the two), else
starts a new interval; the covered-line count is the sum of
`end - begin + 1` over the merged intervals and the percentage is
`round(covered / total * 100, 1)`. -/
theorem coverage_stats_follow_merge_rule
    (filename : Option String) (info : SourceFileTraceabilityInfo)
    (ctx : ParseContext)
    (hstack : ctx.marker_stack = [])
    (hres : markersResolved ctx) :
    ∃ out, source_file_traceability_info_processor filename info ctx = .ok out
      ∧ out.ng_lines_covered = spec_covered (consideredRanges ctx)
      ∧ out.ng_lines_total = ctx.lines_total
      ∧ out._coverage = pythonRound1
          ((spec_covered (consideredRanges ctx) : ℚ) / (ctx.lines_total : ℚ) * 100) := by
  have hloop := merged_ranges_loop_spec ctx.arena ctx.markers hres []
  have hproc : source_file_traceability_info_processor filename info ctx
      = .ok (SourceFileTraceabilityInfo.set_coverage_stats
          { info with markers := ctx.markers.map (arenaGet ctx.arena) }
          ctx.lines_total
          (coverage_sum (spec_merge_fold (consideredRanges ctx)))) := by
    simp only [source_file_traceability_info_processor, hstack, List.length_nil,
      gt_iff_lt, Nat.lt_irrefl, if_false]
    rw [hloop]
    rfl
  have hcov : coverage_sum (spec_merge_fold (consideredRanges ctx))
      = spec_covered (consideredRanges ctx) := by
    rw [spec_covered, spec_merged, coverage_sum_reverse]
  refine ⟨_, hproc, ?_, ?_, ?_⟩
  · simp [SourceFileTraceabilityInfo.set_coverage_stats, hcov]
  · simp [SourceFileTraceabilityInfo.set_coverage_stats]
  · simp [SourceFileTraceabilityInfo.set_coverage_stats, hcov]

theorem coverage_stats_follow_merge_rule_witness :
    markersResolved
      { lines_total := 10,
        arena := [{ is_line := false, ng_is_nodoc := false, begin_flag := true,
                    reqs := ["REQ-1"], loc_line := 2, loc_col := 1,
                    ng_source_line_begin := some 2, ng_range_line_begin := some 2,
                    ng_range_line_end := some 4 },
                  { is_line := false, ng_is_nodoc := false, begin_flag := false,
                    reqs := ["REQ-1"], loc_line := 4, loc_col := 1,
                    ng_source_line_begin := some 4, ng_range_line_begin := some 2,
                    ng_range_line_end := some 4 },
                  { is_line := false, ng_is_nodoc := false, begin_flag := true,
                    reqs := ["REQ-2"], loc_line := 5, loc_col := 1,
                    ng_source_line_begin := some 5, ng_range_line_begin := some 5,
                    ng_range_line_end := some 7 },
                  { is_line := false, ng_is_nodoc := false, begin_flag := false,
                    reqs := ["REQ-2"], loc_line := 7, loc_col := 1,
                    ng_source_line_begin := some 7, ng_range_line_begin := some 5,
                    ng_range_line_end := some 7 }],
        markers := [0, 1, 2, 3], marker_stack := [],
        map_reqs_to_markers := [("REQ-1", [0]), ("REQ-2", [2])] }
    ∧ (∃ out, source_file_traceability_info_processor none
          (SourceFileTraceabilityInfo.init [])
          { lines_total := 10,
            arena := [{ is_line := false, ng_is_nodoc := false, begin_flag := true,
                        reqs := ["REQ-1"], loc_line := 2, loc_col := 1,
                        ng_source_line_begin := some 2, ng_range_line_begin := some 2,
                        ng_range_line_end := some 4 },
                      { is_line := false, ng_is_nodoc := false, begin_flag := false,
                        reqs := ["REQ-1"], loc_line := 4, loc_col := 1,
                        ng_source_line_begin := some 4, ng_range_line_begin := some 2,
                        ng_range_line_end := some 4 },
                      { is_line := false, ng_is_nodoc := false, begin_flag := true,
                        reqs := ["REQ-2"], loc_line := 5, loc_col := 1,
                        ng_source_line_begin := some 5, ng_range_line_begin := some 5,
                        ng_range_line_end := some 7 },
                      { is_line := false, ng_is_nodoc := false, begin_flag := false,
                        reqs := ["REQ-2"], loc_line := 7, loc_col := 1,
                        ng_source_line_begin := some 7, ng_range_line_begin := some 5,
                        ng_range_line_end := some 7 }],
            markers := [0, 1, 2, 3], marker_stack := [],
            map_reqs_to_markers := [("REQ-1", [0]), ("REQ-2", [2])] }
        = .ok out
        ∧ out.ng_lines_covered = spec_covered (consideredRanges
            { lines_total := 10,
              arena := [{ is_line := false, ng_is_nodoc := false, begin_flag := true,
                          reqs := ["REQ-1"], loc_line := 2, loc_col := 1,
                          ng_source_line_begin := some 2, ng_range_line_begin := some 2,
                          ng_range_line_end := some 4 },
                        { is_line := false, ng_is_nodoc := false, begin_flag := false,
                          reqs := ["REQ-1"], loc_line := 4, loc_col := 1,
                          ng_source_line_begin := some 4, ng_range_line_begin := some 2,
                          ng_range_line_end := some 4 },
                        { is_line := false, ng_is_nodoc := false, begin_flag := true,
                          reqs := ["REQ-2"], loc_line := 5, loc_col := 1,
                          ng_source_line_begin := some 5, ng_range_line_begin := some 5,
                          ng_range_line_end := some 7 },
                        { is_line := false, ng_is_nodoc := false, begin_flag := false,
                          reqs := ["REQ-2"], loc_line := 7, loc_col := 1,
                          ng_source_line_begin := some 7, ng_range_line_begin := some 5,
                          ng_range_line_end := some 7 }],
              markers := [0, 1, 2, 3], marker_stack := [],
              map_reqs_to_markers := [("REQ-1", [0]), ("REQ-2", [2])] })
        ∧ out.ng_lines_total = 10
        ∧ out._coverage = pythonRound1
            ((spec_covered (consideredRanges
              { lines_total := 10,
                arena := [{ is_line := false, ng_is_nodoc := false, begin_flag := true,
                            reqs := ["REQ-1"], loc_line := 2, loc_col := 1,
                            ng_source_line_begin := some 2, ng_range_line_begin := some 2,
                            ng_range_line_end := some 4 },
                          { is_line := false, ng_is_nodoc := false, begin_flag := false,
                            reqs := ["REQ-1"], loc_line := 4, loc_col := 1,
                            ng_source_line_begin := some 4, ng_range_line_begin := some 2,
                            ng_range_line_end := some 4 },
                          { is_line := false, ng_is_nodoc := false, begin_flag := true,
                            reqs := ["REQ-2"], loc_line := 5, loc_col := 1,
                            ng_source_line_begin := some 5, ng_range_line_begin := some 5,
                            ng_range_line_end := some 7 },
                          { is_line := false, ng_is_nodoc := false, begin_flag := false,
                            reqs := ["REQ-2"], loc_line := 7, loc_col := 1,
                            ng_source_line_begin := some 7, ng_range_line_begin := some 5,
                            ng_range_line_end := some 7 }],
                markers := [0, 1, 2, 3], marker_stack := [],
                map_reqs_to_markers := [("REQ-1", [0]), ("REQ-2", [2])] }) : ℚ) / (10 : ℚ) * 100))
    ∧ (match read "1\n2\n3\n4\n5\n6\n7\n8\n9\n10" none
          [.rangeTok 2 1 false true ["REQ-1"], .rangeTok 4 1 false false ["REQ-1"],
           .rangeTok 5 1 false true ["REQ-2"], .rangeTok 7 1 false false ["REQ-2"]] with
       | .ok i => some i.ng_lines_covered
       | .error _ => none) = some (6 : Int)
    ∧ pythonRound1 ((6 : ℚ) / 10 * 100) = 60 :=
  ⟨by decide,
    coverage_stats_follow_merge_rule none (SourceFileTraceabilityInfo.init [])
      { lines_total := 10,
        arena := [{ is_line := false, ng_is_nodoc := false, begin_flag := true,
                    reqs := ["REQ-1"], loc_line := 2, loc_col := 1,
                    ng_source_line_begin := some 2, ng_range_line_begin := some 2,
                    ng_range_line_end := some 4 },
                  { is_line := false, ng_is_nodoc := false, begin_flag := false,
                    reqs := ["REQ-1"], loc_line := 4, loc_col := 1,
                    ng_source_line_begin := some 4, ng_range_line_begin := some 2,
                    ng_range_line_end := some 4 },
                  { is_line := false, ng_is_nodoc := false, begin_flag := true,
                    reqs := ["REQ-2"], loc_line := 5, loc_col := 1,
                    ng_source_line_begin := some 5, ng_range_line_begin := some 5,
                    ng_range_line_end := some 7 },
                  { is_line := false, ng_is_nodoc := false, begin_flag := false,
                    reqs := ["REQ-2"], loc_line := 7, loc_col := 1,
                    ng_source_line_begin := some 7, ng_range_line_begin := some 5,
                    ng_range_line_end := some 7 }],
        markers := [0, 1, 2, 3], marker_stack := [],
        map_reqs_to_markers := [("REQ-1", [0]), ("REQ-2", [2])] }
      rfl (by decide),
    by decide,
    by norm_num [pythonRound1, roundHalfEven, Rat.floor]⟩

theorem arenaGet_stable_stack (ctx : ParseContext) (w : Nat) (hinv : Inv ctx w)
    (m : MarkerData) : ∀ i ∈ ctx.marker_stack,
    arenaGet (ctx.arena ++ [m]) i = arenaGet ctx.arena i :=
  fun i hi => arenaGet_append_lt _ _ _ (hinv.stack_lt i hi)

theorem arenaGet_stable_markers (ctx : ParseContext) (w : Nat) (hinv : Inv ctx w)
    (m : MarkerData) : ∀ i ∈ ctx.markers,
    arenaGet (ctx.arena ++ [m]) i = arenaGet ctx.arena i :=
  fun i hi => arenaGet_append_lt _ _ _ (hinv.markers_lt i hi)

/-- Appending a fresh marker object to the arena while leaving the
output, stack and index untouched preserves the invariant. -/
theorem inv_arena_append (ctx : ParseContext) (w l : Nat) (hinv : Inv ctx w)
    (hl : w ≤ l) (m : MarkerData) :
    Inv { ctx with arena := ctx.arena ++ [m] } l := by
  have hstab := arenaGet_stable_stack ctx w hinv m
  have hstabM := arenaGet_stable_markers ctx w hinv m
  constructor
  · intro i hi
    have := hinv.stack_lt i hi
    simp only [List.length_append, List.length_cons, List.length_nil]
    omega
  · intro i hi
    have := hinv.markers_lt i hi
    simp only [List.length_append, List.length_cons, List.length_nil]
    omega
  · intro i hi
    rw [hstabM i hi]
    exact hinv.markers_ordinary i hi
  · exact hinv.stack_dec
  · intro i hi
    rw [hstab i hi]
    exact hinv.stack_range i hi
  · intro i hi hnod
    rw [hstab i hi] at hnod ⊢
    obtain ⟨him, b, hb, hbw, hend⟩ := hinv.stack_open i hi hnod
    exact ⟨him, b, hb, le_trans hbw hl, hend⟩
  · have e1 : acceptedBegins { ctx with arena := ctx.arena ++ [m] } = acceptedBegins ctx :=
      List.filter_congr (fun i hi => by rw [hstabM i hi])
    have e2 : acceptedEnds { ctx with arena := ctx.arena ++ [m] } = acceptedEnds ctx :=
      List.filter_congr (fun i hi => by rw [hstabM i hi])
    have e3 : openOrdinary { ctx with arena := ctx.arena ++ [m] } = openOrdinary ctx :=
      List.filter_congr (fun i hi => by rw [hstab i hi])
    rw [e1, e2, e3]
    exact hinv.count_eq
  · intro i hi hbeg hnin
    rw [hstabM i hi] at hbeg ⊢
    exact hinv.begins_resolved i hi hbeg hnin
  · intro i hi hend
    rw [hstabM i hi] at hend
    obtain ⟨j, hj1, hj2, hj3, hj4, hj5⟩ := hinv.ends_paired i hi hend
    refine ⟨j, hj1, hj2, ?_, ?_, ?_⟩
    · rw [hstabM j hj1]; exact hj3
    · rw [hstabM j hj1, hstabM i hi]; exact hj4
    · rw [hstabM j hj1, hstabM i hi]; exact hj5

/-- Pushing a nodoc begin marker (appended to the arena, not to the
output) preserves the invariant. -/
theorem inv_nodoc_begin_push (ctx : ParseContext) (w l : Nat) (hinv : Inv ctx w)
    (hl : w ≤ l) (m : MarkerData)
    (hm1 : m.is_line = false) (hm2 : m.begin_flag = true)
    (hm3 : m.ng_is_nodoc = true) :
    Inv { ctx with arena := ctx.arena ++ [m], marker_stack := ctx.arena.length :: ctx.marker_stack } l := by
  have hstab := arenaGet_stable_stack ctx w hinv m
  have hstabM := arenaGet_stable_markers ctx w hinv m
  have hnew : arenaGet (ctx.arena ++ [m]) ctx.arena.length = m :=
    arenaGet_append_self _ _
  constructor
  · intro i hi
    simp only [List.length_append, List.length_cons, List.length_nil]
    rcases List.mem_cons.mp hi with rfl | hi
    · omega
    · have := hinv.stack_lt i hi
      omega
  · intro i hi
    have := hinv.markers_lt i hi
    simp only [List.length_append, List.length_cons, List.length_nil]
    omega
  · intro i hi
    rw [hstabM i hi]
    exact hinv.markers_ordinary i hi
  · exact List.Pairwise.cons (fun j hj => hinv.stack_lt j hj) hinv.stack_dec
  · intro i hi
    rcases List.mem_cons.mp hi with rfl | hi
    · rw [hnew]
      exact ⟨hm1, hm2⟩
    · rw [hstab i hi]
      exact hinv.stack_range i hi
  · intro i hi hnod
    rcases List.mem_cons.mp hi with rfl | hi
    · rw [hnew, hm3] at hnod
      cases hnod
    · rw [hstab i hi] at hnod ⊢
      obtain ⟨him, b, hb, hbw, hend⟩ := hinv.stack_open i hi hnod
      exact ⟨him, b, hb, le_trans hbw hl, hend⟩
  · have e1 : acceptedBegins { ctx with arena := ctx.arena ++ [m], marker_stack := ctx.arena.length :: ctx.marker_stack } = acceptedBegins ctx :=
      List.filter_congr (fun i hi => by rw [hstabM i hi])
    have e2 : acceptedEnds { ctx with arena := ctx.arena ++ [m], marker_stack := ctx.arena.length :: ctx.marker_stack } = acceptedEnds ctx :=
      List.filter_congr (fun i hi => by rw [hstabM i hi])
    have e3 : openOrdinary { ctx with arena := ctx.arena ++ [m], marker_stack := ctx.arena.length :: ctx.marker_stack } = openOrdinary ctx := by
      unfold openOrdinary
      rw [show ({ ctx with arena := ctx.arena ++ [m], marker_stack := ctx.arena.length :: ctx.marker_stack } : ParseContext).marker_stack = ctx.arena.length :: ctx.marker_stack from rfl]
      rw [List.filter_cons_of_neg (by rw [hnew, hm3]; decide)]
      exact List.filter_congr (fun i hi => by rw [hstab i hi])
    rw [e1, e2, e3]
    exact hinv.count_eq
  · intro i hi hbeg hnin
    rw [hstabM i hi] at hbeg ⊢
    exact hinv.begins_resolved i hi hbeg
      (fun hc => hnin (List.mem_cons_of_mem _ hc))
  · intro i hi hend
    rw [hstabM i hi] at hend
    obtain ⟨j, hj1, hj2, hj3, hj4, hj5⟩ := hinv.ends_paired i hi hend
    refine ⟨j, hj1, ?_, ?_, ?_, ?_⟩
    · intro hc
      rcases List.mem_cons.mp hc with heq | hc
      · have hlt := hinv.markers_lt j hj1
        omega
      · exact hj2 hc
    · rw [hstabM j hj1]; exact hj3
    · rw [hstabM j hj1, hstabM i hi]; exact hj4
    · rw [hstabM j hj1, hstabM i hi]; exact hj5

/-- Popping a nodoc top marker for a nodoc END (only the arena grows by
the END object) preserves the invariant. -/
theorem inv_nodoc_end_pop (ctx : ParseContext) (w l : Nat) (hinv : Inv ctx w)
    (hl : w ≤ l) (m : MarkerData) (topIdx : Nat) (rest : List Nat)
    (hstack : ctx.marker_stack = topIdx :: rest)
    (htopnodoc : (arenaGet ctx.arena topIdx).ng_is_nodoc = true) :
    Inv { ctx with arena := ctx.arena ++ [m], marker_stack := rest } l := by
  have hstab := arenaGet_stable_stack ctx w hinv m
  have hstabM := arenaGet_stable_markers ctx w hinv m
  have hrestmem : ∀ i ∈ rest, i ∈ ctx.marker_stack := by
    intro i hi
    rw [hstack]
    exact List.mem_cons_of_mem _ hi
  constructor
  · intro i hi
    have := hinv.stack_lt i (hrestmem i hi)
    simp only [List.length_append, List.length_cons, List.length_nil]
    omega
  · intro i hi
    have := hinv.markers_lt i hi
    simp only [List.length_append, List.length_cons, List.length_nil]
    omega
  · intro i hi
    rw [hstabM i hi]
    exact hinv.markers_ordinary i hi
  · have hd := hinv.stack_dec
    rw [hstack] at hd
    exact hd.of_cons
  · intro i hi
    rw [hstab i (hrestmem i hi)]
    exact hinv.stack_range i (hrestmem i hi)
  · intro i hi hnod
    rw [hstab i (hrestmem i hi)] at hnod ⊢
    obtain ⟨him, b, hb, hbw, hend⟩ := hinv.stack_open i (hrestmem i hi) hnod
    exact ⟨him, b, hb, le_trans hbw hl, hend⟩
  · have e1 : acceptedBegins { ctx with arena := ctx.arena ++ [m], marker_stack := rest } = acceptedBegins ctx :=
      List.filter_congr (fun i hi => by rw [hstabM i hi])
    have e2 : acceptedEnds { ctx with arena := ctx.arena ++ [m], marker_stack := rest } = acceptedEnds ctx :=
      List.filter_congr (fun i hi => by rw [hstabM i hi])
    have e3 : openOrdinary { ctx with arena := ctx.arena ++ [m], marker_stack := rest } = openOrdinary ctx := by
      unfold openOrdinary
      rw [show ({ ctx with arena := ctx.arena ++ [m], marker_stack := rest } : ParseContext).marker_stack = rest from rfl]
      rw [show ctx.marker_stack = topIdx :: rest from hstack,
        List.filter_cons_of_neg (by rw [htopnodoc]; decide)]
      exact List.filter_congr (fun i hi => by rw [hstab i (hrestmem i hi)])
    rw [e1, e2, e3]
    exact hinv.count_eq
  · intro i hi hbeg hnin
    rw [hstabM i hi] at hbeg ⊢
    by_cases hit : i = topIdx
    · subst hit
      exact absurd (hinv.markers_ordinary i hi) (by rw [htopnodoc]; simp)
    · have hnin2 : i ∉ ctx.marker_stack := by
        rw [hstack]
        intro hc
        rcases List.mem_cons.mp hc with rfl | hc
        · exact hit rfl
        · exact hnin hc
      exact hinv.begins_resolved i hi hbeg hnin2
  · intro i hi hend
    rw [hstabM i hi] at hend
    obtain ⟨j, hj1, hj2, hj3, hj4, hj5⟩ := hinv.ends_paired i hi hend
    refine ⟨j, hj1, ?_, ?_, ?_, ?_⟩
    · intro hc
      exact hj2 (hrestmem j hc)
    · rw [hstabM j hj1]; exact hj3
    · rw [hstabM j hj1, hstabM i hi]; exact hj4
    · rw [hstabM j hj1, hstabM i hi]; exact hj5


/-- Accepting an ordinary BEGIN marker: appended to arena and output,
pushed onto the stack, index updated.  (`Inv` does not depend on the
requirement index, so the new map is arbitrary.) -/
theorem inv_ordinary_begin_accept (ctx : ParseContext) (w l : Nat)
    (hinv : Inv ctx w) (hl : w ≤ l) (m : MarkerData)
    (newmap : List (String × List Nat))
    (hm1 : m.is_line = false) (hm2 : m.begin_flag = true)
    (hm3 : m.ng_is_nodoc = false)
    (hm4 : m.ng_range_line_begin = some l) (hm5 : m.ng_range_line_end = none) :
    Inv { ctx with arena := ctx.arena ++ [m], markers := ctx.markers ++ [ctx.arena.length], marker_stack := ctx.arena.length :: ctx.marker_stack, map_reqs_to_markers := newmap } l := by
  have hstab := arenaGet_stable_stack ctx w hinv m
  have hstabM := arenaGet_stable_markers ctx w hinv m
  have hnew : arenaGet (ctx.arena ++ [m]) ctx.arena.length = m :=
    arenaGet_append_self _ _
  have hmemM : ∀ i ∈ ctx.markers ++ [ctx.arena.length],
      i ∈ ctx.markers ∨ i = ctx.arena.length := by
    intro i hi
    rcases List.mem_append.mp hi with h | h
    · exact Or.inl h
    · exact Or.inr (List.mem_singleton.mp h)
  constructor
  · intro i hi
    simp only [List.length_append, List.length_cons, List.length_nil]
    rcases List.mem_cons.mp hi with rfl | hi
    · omega
    · have := hinv.stack_lt i hi
      omega
  · intro i hi
    simp only [List.length_append, List.length_cons, List.length_nil]
    rcases hmemM i hi with h | rfl
    · have := hinv.markers_lt i h
      omega
    · omega
  · intro i hi
    rcases hmemM i hi with h | rfl
    · rw [hstabM i h]
      exact hinv.markers_ordinary i h
    · rw [hnew]
      exact hm3
  · exact List.Pairwise.cons (fun j hj => hinv.stack_lt j hj) hinv.stack_dec
  · intro i hi
    rcases List.mem_cons.mp hi with rfl | hi
    · rw [hnew]
      exact ⟨hm1, hm2⟩
    · rw [hstab i hi]
      exact hinv.stack_range i hi
  · intro i hi hnod
    rcases List.mem_cons.mp hi with rfl | hi
    · rw [hnew]
      refine ⟨List.mem_append.mpr (Or.inr (List.mem_singleton.mpr rfl)), l, hm4, le_refl l, hm5⟩
    · rw [hstab i hi] at hnod ⊢
      obtain ⟨him, b, hb, hbw, hend⟩ := hinv.stack_open i hi hnod
      exact ⟨List.mem_append.mpr (Or.inl him), b, hb, le_trans hbw hl, hend⟩
  · have hb1 : isRangeBegin m = true := by
      rw [isRangeBegin, hm1, hm2]
      rfl
    have he1 : isRangeEnd m = false := by
      rw [isRangeEnd, hm1, hm2]
      rfl
    have ho1 : (!m.ng_is_nodoc) = true := by
      rw [hm3]
      rfl
    have e1 : (acceptedBegins { ctx with arena := ctx.arena ++ [m], markers := ctx.markers ++ [ctx.arena.length], marker_stack := ctx.arena.length :: ctx.marker_stack, map_reqs_to_markers := newmap }).length = (acceptedBegins ctx).length + 1 := by
      unfold acceptedBegins
      rw [show ({ ctx with arena := ctx.arena ++ [m], markers := ctx.markers ++ [ctx.arena.length], marker_stack := ctx.arena.length :: ctx.marker_stack, map_reqs_to_markers := newmap } : ParseContext).markers = ctx.markers ++ [ctx.arena.length] from rfl]
      rw [List.filter_append, List.filter_congr (fun i hi => by rw [hstabM i hi])]
      rw [show List.filter (fun i => isRangeBegin (arenaGet (ctx.arena ++ [m]) i)) [ctx.arena.length] = [ctx.arena.length] from by
        rw [List.filter_cons_of_pos (by rw [hnew, hb1])]
        rfl]
      simp
    have e2 : (acceptedEnds { ctx with arena := ctx.arena ++ [m], markers := ctx.markers ++ [ctx.arena.length], marker_stack := ctx.arena.length :: ctx.marker_stack, map_reqs_to_markers := newmap }).length = (acceptedEnds ctx).length := by
      unfold acceptedEnds
      rw [show ({ ctx with arena := ctx.arena ++ [m], markers := ctx.markers ++ [ctx.arena.length], marker_stack := ctx.arena.length :: ctx.marker_stack, map_reqs_to_markers := newmap } : ParseContext).markers = ctx.markers ++ [ctx.arena.length] from rfl]
      rw [List.filter_append, List.filter_congr (fun i hi => by rw [hstabM i hi])]
      rw [show List.filter (fun i => isRangeEnd (arenaGet (ctx.arena ++ [m]) i)) [ctx.arena.length] = [] from by
        rw [List.filter_cons_of_neg (by rw [hnew, he1]; decide)]
        rfl]
      simp
    have e3 : (openOrdinary { ctx with arena := ctx.arena ++ [m], markers := ctx.markers ++ [ctx.arena.length], marker_stack := ctx.arena.length :: ctx.marker_stack, map_reqs_to_markers := newmap }).length = (openOrdinary ctx).length + 1 := by
      unfold openOrdinary
      rw [show ({ ctx with arena := ctx.arena ++ [m], markers := ctx.markers ++ [ctx.arena.length], marker_stack := ctx.arena.length :: ctx.marker_stack, map_reqs_to_markers := newmap } : ParseContext).marker_stack = ctx.arena.length :: ctx.marker_stack from rfl]
      rw [List.filter_cons_of_pos (by rw [hnew]; exact ho1)]
      rw [List.filter_congr (fun i hi => by rw [hstab i hi])]
      simp
    rw [e1, e2, e3]
    have := hinv.count_eq
    omega
  · intro i hi hbeg hnin
    rcases hmemM i hi with h | rfl
    · rw [hstabM i h] at hbeg ⊢
      have hnin2 : i ∉ ctx.marker_stack :=
        fun hc => hnin (List.mem_cons_of_mem _ hc)
      exact hinv.begins_resolved i h hbeg hnin2
    · exact absurd (List.mem_cons_self _ _) hnin
  · intro i hi hend
    rcases hmemM i hi with h | rfl
    · rw [hstabM i h] at hend
      obtain ⟨j, hj1, hj2, hj3, hj4, hj5⟩ := hinv.ends_paired i h hend
      refine ⟨j, List.mem_append.mpr (Or.inl hj1), ?_, ?_, ?_, ?_⟩
      · intro hc
        rcases List.mem_cons.mp hc with heq | hc
        · have := hinv.markers_lt j hj1
          omega
        · exact hj2 hc
      · rw [hstabM j hj1]; exact hj3
      · rw [hstabM j hj1, hstabM i h]; exact hj4
      · rw [hstabM j hj1, hstabM i h]; exact hj5
    · rw [hnew] at hend
      rw [isRangeEnd, hm1, hm2] at hend
      cases hend


/-- Accepting a LineMarker: appended to arena and output, stack untouched. -/
theorem inv_line_accept (ctx : ParseContext) (w l : Nat)
    (hinv : Inv ctx w) (hl : w ≤ l) (m : MarkerData)
    (newmap : List (String × List Nat))
    (hm1 : m.is_line = true) (hm3 : m.ng_is_nodoc = false) :
    Inv { ctx with arena := ctx.arena ++ [m], markers := ctx.markers ++ [ctx.arena.length], map_reqs_to_markers := newmap } l := by
  have hstab := arenaGet_stable_stack ctx w hinv m
  have hstabM := arenaGet_stable_markers ctx w hinv m
  have hnew : arenaGet (ctx.arena ++ [m]) ctx.arena.length = m :=
    arenaGet_append_self _ _
  have hmemM : ∀ i ∈ ctx.markers ++ [ctx.arena.length],
      i ∈ ctx.markers ∨ i = ctx.arena.length := by
    intro i hi
    rcases List.mem_append.mp hi with h | h
    · exact Or.inl h
    · exact Or.inr (List.mem_singleton.mp h)
  have hbfalse : isRangeBegin m = false := by
    rw [isRangeBegin, hm1]
    rfl
  have hefalse : isRangeEnd m = false := by
    rw [isRangeEnd, hm1]
    rfl
  constructor
  · intro i hi
    have := hinv.stack_lt i hi
    simp only [List.length_append, List.length_cons, List.length_nil]
    omega
  · intro i hi
    simp only [List.length_append, List.length_cons, List.length_nil]
    rcases hmemM i hi with h | rfl
    · have := hinv.markers_lt i h
      omega
    · omega
  · intro i hi
    rcases hmemM i hi with h | rfl
    · rw [hstabM i h]
      exact hinv.markers_ordinary i h
    · rw [hnew]
      exact hm3
  · exact hinv.stack_dec
  · intro i hi
    rw [hstab i hi]
    exact hinv.stack_range i hi
  · intro i hi hnod
    rw [hstab i hi] at hnod ⊢
    obtain ⟨him, b, hb, hbw, hend⟩ := hinv.stack_open i hi hnod
    exact ⟨List.mem_append.mpr (Or.inl him), b, hb, le_trans hbw hl, hend⟩
  · have e1 : (acceptedBegins { ctx with arena := ctx.arena ++ [m], markers := ctx.markers ++ [ctx.arena.length], map_reqs_to_markers := newmap }).length = (acceptedBegins ctx).length := by
      unfold acceptedBegins
      rw [show ({ ctx with arena := ctx.arena ++ [m], markers := ctx.markers ++ [ctx.arena.length], map_reqs_to_markers := newmap } : ParseContext).markers = ctx.markers ++ [ctx.arena.length] from rfl]
      rw [List.filter_append, List.filter_congr (fun i hi => by rw [hstabM i hi])]
      rw [show List.filter (fun i => isRangeBegin (arenaGet (ctx.arena ++ [m]) i)) [ctx.arena.length] = [] from by
        rw [List.filter_cons_of_neg (by rw [hnew, hbfalse]; decide)]
        rfl]
      simp
    have e2 : (acceptedEnds { ctx with arena := ctx.arena ++ [m], markers := ctx.markers ++ [ctx.arena.length], map_reqs_to_markers := newmap }).length = (acceptedEnds ctx).length := by
      unfold acceptedEnds
      rw [show ({ ctx with arena := ctx.arena ++ [m], markers := ctx.markers ++ [ctx.arena.length], map_reqs_to_markers := newmap } : ParseContext).markers = ctx.markers ++ [ctx.arena.length] from rfl]
      rw [List.filter_append, List.filter_congr (fun i hi => by rw [hstabM i hi])]
      rw [show List.filter (fun i => isRangeEnd (arenaGet (ctx.arena ++ [m]) i)) [ctx.arena.length] = [] from by
        rw [List.filter_cons_of_neg (by rw [hnew, hefalse]; decide)]
        rfl]
      simp
    have e3 : (openOrdinary { ctx with arena := ctx.arena ++ [m], markers := ctx.markers ++ [ctx.arena.length], map_reqs_to_markers := newmap }).length = (openOrdinary ctx).length := by
      unfold openOrdinary
      rw [show ({ ctx with arena := ctx.arena ++ [m], markers := ctx.markers ++ [ctx.arena.length], map_reqs_to_markers := newmap } : ParseContext).marker_stack = ctx.marker_stack from rfl]
      rw [List.filter_congr (fun i hi => by rw [hstab i hi])]
    rw [e1, e2, e3]
    exact hinv.count_eq
  · intro i hi hbeg hnin
    rcases hmemM i hi with h | rfl
    · rw [hstabM i h] at hbeg ⊢
      exact hinv.begins_resolved i h hbeg hnin
    · rw [hnew, hbfalse] at hbeg
      cases hbeg
  · intro i hi hend
    rcases hmemM i hi with h | rfl
    · rw [hstabM i h] at hend
      obtain ⟨j, hj1, hj2, hj3, hj4, hj5⟩ := hinv.ends_paired i h hend
      refine ⟨j, List.mem_append.mpr (Or.inl hj1), hj2, ?_, ?_, ?_⟩
      · rw [hstabM j hj1]; exact hj3
      · rw [hstabM j hj1, hstabM i h]; exact hj4
      · rw [hstabM j hj1, hstabM i h]; exact hj5
    · rw [hnew, hefalse] at hend
      cases hend


theorem arenaGet_set_self (l : List MarkerData) (i : Nat) (m : MarkerData)
    (h : i < l.length) : arenaGet (l.set i m) i = m := by
  induction l generalizing i with
  | nil => simp at h
  | cons x xs ih =>
      cases i with
      | zero => rfl
      | succ n => simpa [arenaGet, List.set] using ih n (by simpa using h)

/-- Accepting an ordinary END marker: the popped BEGIN (updated to `T`,
which closes its range at line `l`) stays in place, the END object `m`
(carrying the same resolved range) is appended to arena and output, and
the stack is popped. -/
theorem inv_ordinary_end_accept (ctx : ParseContext) (w l : Nat)
    (hinv : Inv ctx w) (hl : w ≤ l) (topIdx : Nat) (rest : List Nat)
    (hstack : ctx.marker_stack = topIdx :: rest)
    (htopord : (arenaGet ctx.arena topIdx).ng_is_nodoc = false)
    (m T : MarkerData)
    (hm1 : m.is_line = false) (hm2 : m.begin_flag = false) (hm3 : m.ng_is_nodoc = false)
    (hm4 : m.ng_range_line_begin = (arenaGet ctx.arena topIdx).ng_range_line_begin)
    (hm5 : m.ng_range_line_end = some l)
    (hT1 : T.is_line = (arenaGet ctx.arena topIdx).is_line)
    (hT2 : T.begin_flag = (arenaGet ctx.arena topIdx).begin_flag)
    (hT3 : T.ng_is_nodoc = (arenaGet ctx.arena topIdx).ng_is_nodoc)
    (hT4 : T.ng_range_line_begin = (arenaGet ctx.arena topIdx).ng_range_line_begin)
    (hT5 : T.ng_range_line_end = some l) :
    Inv { ctx with arena := (ctx.arena.set topIdx T) ++ [m], markers := ctx.markers ++ [ctx.arena.length], marker_stack := rest } l := by
  have htopmem : topIdx ∈ ctx.marker_stack := by
    rw [hstack]
    exact List.mem_cons_self _ _
  have htoplt : topIdx < ctx.arena.length := hinv.stack_lt topIdx htopmem
  obtain ⟨htopline, htopbf⟩ := hinv.stack_range topIdx htopmem
  obtain ⟨htopinmarkers, b, hbeq, hblew, hendnone⟩ :=
    hinv.stack_open topIdx htopmem htopord
  have hpair : ∀ j ∈ rest, j < topIdx := by
    have hd := hinv.stack_dec
    rw [hstack] at hd
    exact fun j hj => (List.pairwise_cons.mp hd).1 j hj
  have hrestmem : ∀ i ∈ rest, i ∈ ctx.marker_stack := by
    intro i hi
    rw [hstack]
    exact List.mem_cons_of_mem _ hi
  have hgetTop : arenaGet ((ctx.arena.set topIdx T) ++ [m]) topIdx = T := by
    rw [arenaGet_append_lt _ _ _ (by rw [List.length_set]; exact htoplt)]
    exact arenaGet_set_self _ _ _ htoplt
  have hgetOther : ∀ i, i < ctx.arena.length → i ≠ topIdx →
      arenaGet ((ctx.arena.set topIdx T) ++ [m]) i = arenaGet ctx.arena i := by
    intro i h1 h2
    rw [arenaGet_append_lt _ _ _ (by rw [List.length_set]; exact h1)]
    exact arenaGet_set_ne _ _ _ _ (fun hc => h2 hc.symm)
  have hgetNew : arenaGet ((ctx.arena.set topIdx T) ++ [m]) ctx.arena.length = m := by
    have h0 := arenaGet_append_self (ctx.arena.set topIdx T) m
    rw [List.length_set] at h0
    exact h0
  have hmemM : ∀ i ∈ ctx.markers ++ [ctx.arena.length],
      i ∈ ctx.markers ∨ i = ctx.arena.length := by
    intro i hi
    rcases List.mem_append.mp hi with h | h
    · exact Or.inl h
    · exact Or.inr (List.mem_singleton.mp h)
  have hTbeg : isRangeBegin T = true := by
    rw [isRangeBegin, hT1, hT2, htopline, htopbf]
    rfl
  have hTend : isRangeEnd T = false := by
    rw [isRangeEnd, hT1, hT2, htopline, htopbf]
    rfl
  have hTsameBeg : isRangeBegin T = isRangeBegin (arenaGet ctx.arena topIdx) := by
    rw [isRangeBegin, isRangeBegin, hT1, hT2]
  have hTsameEnd : isRangeEnd T = isRangeEnd (arenaGet ctx.arena topIdx) := by
    rw [isRangeEnd, isRangeEnd, hT1, hT2]
  have hmbeg : isRangeBegin m = false := by
    rw [isRangeBegin, hm1, hm2]
    rfl
  have hmend : isRangeEnd m = true := by
    rw [isRangeEnd, hm1, hm2]
    rfl
  have hstabMarkers : ∀ i ∈ ctx.markers, i ≠ topIdx →
      arenaGet ((ctx.arena.set topIdx T) ++ [m]) i = arenaGet ctx.arena i :=
    fun i hi hne => hgetOther i (hinv.markers_lt i hi) hne
  have htopnotrest : topIdx ∉ rest := by
    intro hc
    exact absurd (hpair topIdx hc) (lt_irrefl _)
  constructor
  · intro i hi
    have := hinv.stack_lt i (hrestmem i hi)
    simp only [List.length_append, List.length_set, List.length_cons, List.length_nil]
    omega
  · intro i hi
    simp only [List.length_append, List.length_set, List.length_cons, List.length_nil]
    rcases hmemM i hi with h | rfl
    · have := hinv.markers_lt i h
      omega
    · omega
  · intro i hi
    rcases hmemM i hi with h | rfl
    · by_cases hit : i = topIdx
      · subst hit
        rw [hgetTop, hT3]
        exact htopord
      · rw [hstabMarkers i h hit]
        exact hinv.markers_ordinary i h
    · rw [hgetNew]
      exact hm3
  · have hd := hinv.stack_dec
    rw [hstack] at hd
    exact hd.of_cons
  · intro i hi
    have hne : i ≠ topIdx := fun hc => absurd (hpair i hi) (by rw [hc]; exact lt_irrefl _)
    rw [hgetOther i (hinv.stack_lt i (hrestmem i hi)) hne]
    exact hinv.stack_range i (hrestmem i hi)
  · intro i hi hnod
    have hne : i ≠ topIdx := fun hc => absurd (hpair i hi) (by rw [hc]; exact lt_irrefl _)
    rw [hgetOther i (hinv.stack_lt i (hrestmem i hi)) hne] at hnod ⊢
    obtain ⟨him, b2, hb2, hb2w, hend2⟩ := hinv.stack_open i (hrestmem i hi) hnod
    exact ⟨List.mem_append.mpr (Or.inl him), b2, hb2, le_trans hb2w hl, hend2⟩
  · have congrM : ∀ p : MarkerData → Bool,
        (p T = p (arenaGet ctx.arena topIdx)) →
        List.filter (fun i => p (arenaGet ((ctx.arena.set topIdx T) ++ [m]) i)) ctx.markers
        = List.filter (fun i => p (arenaGet ctx.arena i)) ctx.markers := by
      intro p hp
      apply List.filter_congr
      intro i hi
      by_cases hit : i = topIdx
      · subst hit
        rw [hgetTop, hp]
      · rw [hstabMarkers i hi hit]
    have e1 : (acceptedBegins { ctx with arena := (ctx.arena.set topIdx T) ++ [m], markers := ctx.markers ++ [ctx.arena.length], marker_stack := rest }).length = (acceptedBegins ctx).length := by
      unfold acceptedBegins
      rw [show ({ ctx with arena := (ctx.arena.set topIdx T) ++ [m], markers := ctx.markers ++ [ctx.arena.length], marker_stack := rest } : ParseContext).markers = ctx.markers ++ [ctx.arena.length] from rfl]
      rw [List.filter_append, congrM isRangeBegin hTsameBeg]
      rw [show List.filter (fun i => isRangeBegin (arenaGet ((ctx.arena.set topIdx T) ++ [m]) i)) [ctx.arena.length] = [] from by
        rw [List.filter_cons_of_neg (by rw [hgetNew, hmbeg]; decide)]
        rfl]
      simp
    have e2 : (acceptedEnds { ctx with arena := (ctx.arena.set topIdx T) ++ [m], markers := ctx.markers ++ [ctx.arena.length], marker_stack := rest }).length = (acceptedEnds ctx).length + 1 := by
      unfold acceptedEnds
      rw [show ({ ctx with arena := (ctx.arena.set topIdx T) ++ [m], markers := ctx.markers ++ [ctx.arena.length], marker_stack := rest } : ParseContext).markers = ctx.markers ++ [ctx.arena.length] from rfl]
      rw [List.filter_append, congrM isRangeEnd hTsameEnd]
      rw [show List.filter (fun i => isRangeEnd (arenaGet ((ctx.arena.set topIdx T) ++ [m]) i)) [ctx.arena.length] = [ctx.arena.length] from by
        rw [List.filter_cons_of_pos (by rw [hgetNew, hmend])]
        rfl]
      simp
    have e3 : (openOrdinary ctx).length = (openOrdinary { ctx with arena := (ctx.arena.set topIdx T) ++ [m], markers := ctx.markers ++ [ctx.arena.length], marker_stack := rest }).length + 1 := by
      unfold openOrdinary
      rw [show ({ ctx with arena := (ctx.arena.set topIdx T) ++ [m], markers := ctx.markers ++ [ctx.arena.length], marker_stack := rest } : ParseContext).marker_stack = rest from rfl]
      rw [show ctx.marker_stack = topIdx :: rest from hstack]
      rw [List.filter_cons_of_pos (by rw [htopord]; rfl)]
      have hcong : List.filter
          (fun i => !(arenaGet ((ctx.arena.set topIdx T) ++ [m]) i).ng_is_nodoc) rest
          = List.filter (fun i => !(arenaGet ctx.arena i).ng_is_nodoc) rest :=
        List.filter_congr (fun i hi => by
          have hne : i ≠ topIdx := fun hc => absurd (hpair i hi) (by rw [hc]; exact lt_irrefl _)
          rw [hgetOther i (hinv.stack_lt i (hrestmem i hi)) hne])
      rw [hcong]
      simp
    rw [e1, e2]
    have hc := hinv.count_eq
    rw [e3] at hc
    omega
  · intro i hi hbeg hnin
    rcases hmemM i hi with h | rfl
    · by_cases hit : i = topIdx
      · subst hit
        rw [hgetTop]
        rw [hasResolvedRange, hT4, hT5, hbeq]
        have hble : b ≤ l := le_trans hblew hl
        simp [hble]
      · rw [hstabMarkers i h hit] at hbeg ⊢
        have hnin2 : i ∉ ctx.marker_stack := by
          rw [hstack]
          intro hc
          rcases List.mem_cons.mp hc with heq | hc
          · exact hit heq
          · exact hnin hc
        exact hinv.begins_resolved i h hbeg hnin2
    · rw [hgetNew, hmbeg] at hbeg
      cases hbeg
  · intro i hi hend
    rcases hmemM i hi with h | rfl
    · by_cases hit : i = topIdx
      · subst hit
        rw [hgetTop, hTend] at hend
        cases hend
      · rw [hstabMarkers i h hit] at hend
        obtain ⟨j, hj1, hj2, hj3, hj4, hj5⟩ := hinv.ends_paired i h hend
        have hjne : j ≠ topIdx := fun hc => hj2 (hc ▸ htopmem)
        refine ⟨j, List.mem_append.mpr (Or.inl hj1), ?_, ?_, ?_, ?_⟩
        · intro hc
          exact hj2 (hrestmem j hc)
        · rw [hstabMarkers j hj1 hjne]
          exact hj3
        · rw [hstabMarkers j hj1 hjne, hstabMarkers i h hit]
          exact hj4
        · rw [hstabMarkers j hj1 hjne, hstabMarkers i h hit]
          exact hj5
    · refine ⟨topIdx, List.mem_append.mpr (Or.inl htopinmarkers), htopnotrest, ?_, ?_, ?_⟩
      · rw [hgetTop, hTbeg]
      · rw [hgetTop, hgetNew, hm4, hT4]
      · rw [hgetTop, hgetNew, hm5, hT5]




theorem is_begin_range_mk (nd bf : Bool) (rs : List String) (l c : Nat) :
    MarkerData.is_begin { is_line := false, ng_is_nodoc := nd, begin_flag := bf, reqs := rs, loc_line := l, loc_col := c } = bf := rfl

theorem is_end_range_mk (nd bf : Bool) (rs : List String) (l c : Nat) :
    MarkerData.is_end { is_line := false, ng_is_nodoc := nd, begin_flag := bf, reqs := rs, loc_line := l, loc_col := c } = !bf := rfl


theorem inv_range_step (filename : Option String) (l c : Nat) (nd bf : Bool)
    (rs : List String) (ctx ctx' : ParseContext) (w : Nat)
    (hinv : Inv ctx w) (hl : w ≤ l)
    (hok : range_marker_processor filename l c nd bf rs ctx = .ok ctx') :
    Inv ctx' l := by
  cases nd with
  | true =>
      cases bf with
      | true =>
          simp only [range_marker_processor, is_begin_range_mk, is_end_range_mk,
            Bool.false_eq_true, reduceIte] at hok
          rw [Except.ok.injEq] at hok
          subst hok
          exact inv_nodoc_begin_push ctx w l hinv hl _ rfl rfl rfl
      | false =>
          simp only [range_marker_processor, is_begin_range_mk, is_end_range_mk,
            Bool.not_false, Bool.false_eq_true, reduceIte] at hok
          cases hst : ctx.marker_stack with
          | nil =>
              rw [hst] at hok
              simp only at hok
              exact Except.noConfusion hok
          | cons topIdx rest =>
              rw [hst] at hok
              simp only at hok
              have htoplt : topIdx < ctx.arena.length :=
                hinv.stack_lt topIdx (by rw [hst]; exact List.mem_cons_self _ _)
              have hstable : arenaGet (ctx.arena ++
                  [{ is_line := false, ng_is_nodoc := true, begin_flag := false,
                     reqs := rs, loc_line := l, loc_col := c }]) topIdx
                  = arenaGet ctx.arena topIdx :=
                arenaGet_append_lt _ _ _ htoplt
              rw [hstable] at hok
              by_cases hcond : (!(arenaGet ctx.arena topIdx).ng_is_nodoc
                  || (arenaGet ctx.arena topIdx).is_end) = true
              · rw [if_pos hcond] at hok
                exact Except.noConfusion hok
              · rw [if_neg hcond] at hok
                rw [Except.ok.injEq] at hok
                subst hok
                have hnodoc : (arenaGet ctx.arena topIdx).ng_is_nodoc = true := by
                  rcases hx : (arenaGet ctx.arena topIdx).ng_is_nodoc with _ | _
                  · exact absurd (by rw [hx]; rfl :
                      (!(arenaGet ctx.arena topIdx).ng_is_nodoc
                        || (arenaGet ctx.arena topIdx).is_end) = true) hcond
                  · rfl
                have h := inv_nodoc_end_pop ctx w l hinv hl
                  ({ is_line := false, ng_is_nodoc := true, begin_flag := false,
                     reqs := rs, loc_line := l, loc_col := c }) topIdx rest hst hnodoc
                exact h
  | false =>
      simp only [range_marker_processor, is_begin_range_mk, is_end_range_mk,
        Bool.not_false, Bool.not_true, Bool.false_eq_true, reduceIte] at hok
      cases hst : ctx.marker_stack with
      | nil =>
          rw [hst] at hok
          simp only at hok
          cases bf with
          | true =>
              simp only [Bool.false_eq_true, reduceIte] at hok
              rw [Except.ok.injEq] at hok
              subst hok
              rw [set_append_length]
              have h := inv_ordinary_begin_accept ctx w l hinv hl
                ({ is_line := false, ng_is_nodoc := false, begin_flag := true, reqs := rs, loc_line := l, loc_col := c, ng_source_line_begin := some l, ng_range_line_begin := some l, ng_range_line_end := none })
                (List.foldl (fun m2 r => mapSetdefaultAppend m2 r ctx.arena.length) ctx.map_reqs_to_markers rs)
                rfl rfl rfl rfl rfl
              rw [hst] at h
              exact h
          | false =>
              simp only [Bool.false_eq_true, reduceIte] at hok
              exact Except.noConfusion hok
      | cons topIdx rest =>
          rw [hst] at hok
          simp only at hok
          have htoplt : topIdx < ctx.arena.length :=
            hinv.stack_lt topIdx (by rw [hst]; exact List.mem_cons_self _ _)
          have hstable : arenaGet (ctx.arena ++
              [{ is_line := false, ng_is_nodoc := false, begin_flag := bf,
                 reqs := rs, loc_line := l, loc_col := c }]) topIdx
              = arenaGet ctx.arena topIdx :=
            arenaGet_append_lt _ _ _ htoplt
          rw [hstable] at hok
          by_cases hnd : (arenaGet ctx.arena topIdx).ng_is_nodoc = true
          · rw [if_pos hnd] at hok
            rw [Except.ok.injEq] at hok
            subst hok
            have h := inv_arena_append ctx w l hinv hl
              ({ is_line := false, ng_is_nodoc := false, begin_flag := bf,
                 reqs := rs, loc_line := l, loc_col := c })
            rw [hst] at h
            exact h
          · rw [if_neg hnd] at hok
            have htopord : (arenaGet ctx.arena topIdx).ng_is_nodoc = false := by
              rcases hx : (arenaGet ctx.arena topIdx).ng_is_nodoc with _ | _
              · rfl
              · exact absurd hx hnd
            cases bf with
            | true =>
                simp only [Bool.false_eq_true, reduceIte] at hok
                rw [Except.ok.injEq] at hok
                subst hok
                rw [set_append_length]
                have h := inv_ordinary_begin_accept ctx w l hinv hl
                  ({ is_line := false, ng_is_nodoc := false, begin_flag := true, reqs := rs, loc_line := l, loc_col := c, ng_source_line_begin := some l, ng_range_line_begin := some l, ng_range_line_end := none })
                  (List.foldl (fun m2 r => mapSetdefaultAppend m2 r ctx.arena.length) ctx.map_reqs_to_markers rs)
                  rfl rfl rfl rfl rfl
                rw [hst] at h
                exact h
            | false =>
                simp only [Bool.false_eq_true, reduceIte] at hok
                by_cases hreq : rs = (arenaGet ctx.arena topIdx).reqs
                · rw [if_neg (by simp [hreq])] at hok
                  rw [Except.ok.injEq] at hok
                  subst hok
                  rw [set_append_length, set_append_left _ _ _ htoplt]
                  exact inv_ordinary_end_accept ctx w l hinv hl topIdx rest hst htopord
                    ({ is_line := false, ng_is_nodoc := false, begin_flag := false, reqs := rs, loc_line := l, loc_col := c, ng_source_line_begin := some l, ng_range_line_begin := (arenaGet ctx.arena topIdx).ng_range_line_begin, ng_range_line_end := some l })
                    ({ arenaGet ctx.arena topIdx with ng_range_line_end := some l })
                    rfl rfl rfl rfl rfl rfl rfl rfl rfl rfl
                · rw [if_pos (by simp [hreq])] at hok
                  exact Except.noConfusion hok


theorem inv_line_step (filename : Option String) (l c : Nat)
    (rs : List String) (ctx ctx' : ParseContext) (w : Nat)
    (hinv : Inv ctx w) (hl : w ≤ l)
    (hok : line_marker_processor filename l c rs ctx = .ok ctx') :
    Inv ctx' l := by
  simp only [line_marker_processor] at hok
  cases hst : ctx.marker_stack with
  | nil =>
      rw [hst] at hok
      simp only [Bool.false_eq_true, reduceIte] at hok
      rw [Except.ok.injEq] at hok
      subst hok
      rw [set_append_length]
      have h := inv_line_accept ctx w l hinv hl
        ({ is_line := true, ng_is_nodoc := false, begin_flag := true, reqs := rs, loc_line := l, loc_col := c, ng_source_line_begin := some l, ng_range_line_begin := some l, ng_range_line_end := some l })
        (List.foldl (fun m2 r => mapSetdefaultAppend m2 r ctx.arena.length) ctx.map_reqs_to_markers rs)
        rfl rfl
      rw [hst] at h
      exact h
  | cons topIdx rest =>
      rw [hst] at hok
      simp only at hok
      have htoplt : topIdx < ctx.arena.length :=
        hinv.stack_lt topIdx (by rw [hst]; exact List.mem_cons_self _ _)
      have hstable : arenaGet (ctx.arena ++
          [{ is_line := true, ng_is_nodoc := false, begin_flag := true,
             reqs := rs, loc_line := l, loc_col := c }]) topIdx
          = arenaGet ctx.arena topIdx :=
        arenaGet_append_lt _ _ _ htoplt
      simp only [hstable] at hok
      by_cases hnd : (arenaGet ctx.arena topIdx).ng_is_nodoc = true
      · rw [if_pos hnd] at hok
        rw [Except.ok.injEq] at hok
        subst hok
        have h := inv_arena_append ctx w l hinv hl
          ({ is_line := true, ng_is_nodoc := false, begin_flag := true,
             reqs := rs, loc_line := l, loc_col := c })
        rw [hst] at h
        exact h
      · rw [if_neg hnd] at hok
        rw [Except.ok.injEq] at hok
        subst hok
        rw [set_append_length]
        have h := inv_line_accept ctx w l hinv hl
          ({ is_line := true, ng_is_nodoc := false, begin_flag := true, reqs := rs, loc_line := l, loc_col := c, ng_source_line_begin := some l, ng_range_line_begin := some l, ng_range_line_end := some l })
          (List.foldl (fun m2 r => mapSetdefaultAppend m2 r ctx.arena.length) ctx.map_reqs_to_markers rs)
          rfl rfl
        rw [hst] at h
        exact h


theorem inv_process_markers (filename : Option String) (toks : List Tok)
    (ctx ctx' : ParseContext) (w : Nat)
    (hinv : Inv ctx w)
    (hw : ∀ t ∈ toks.head?, w ≤ t.tokLine)
    (hmono : linesMono toks)
    (hok : process_markers filename toks ctx = .ok ctx') :
    ∃ w', Inv ctx' w' := by
  induction toks generalizing ctx w with
  | nil =>
      simp only [process_markers, Except.ok.injEq] at hok
      exact ⟨w, hok ▸ hinv⟩
  | cons t rest ih =>
      obtain ⟨hw1, hmono2⟩ := List.chain'_cons'.mp hmono
      cases t with
      | rangeTok l c nd bf rs =>
          simp only [process_markers] at hok
          cases hstep : range_marker_processor filename l c nd bf rs ctx with
          | error e =>
              rw [hstep] at hok
              exact Except.noConfusion hok
          | ok ctx1 =>
              rw [hstep] at hok
              have hli := inv_range_step filename l c nd bf rs ctx ctx1 w hinv
                (hw (Tok.rangeTok l c nd bf rs) rfl) hstep
              exact ih ctx1 l hli (fun t2 ht2 => hw1 t2 ht2) hmono2 hok
      | lineTok l c rs =>
          simp only [process_markers] at hok
          cases hstep : line_marker_processor filename l c rs ctx with
          | error e =>
              rw [hstep] at hok
              exact Except.noConfusion hok
          | ok ctx1 =>
              rw [hstep] at hok
              have hli := inv_line_step filename l c rs ctx ctx1 w hinv
                (hw (Tok.lineTok l c rs) rfl) hstep
              exact ih ctx1 l hli (fun t2 ht2 => hw1 t2 ht2) hmono2 hok

/-- C6: a successful parse (all tokens processed without error and the
stack empty at end of input) yields as many accepted BEGIN as accepted
END range markers; every accepted BEGIN carries a resolved range with
end ≥ begin; and every accepted END records the same begin/end line pair
as an accepted (closed) BEGIN marker. -/
theorem matched_parse_marker_invariants (filename : Option String)
    (toks : List Tok) (n : Nat) (ctx : ParseContext)
    (hmono : linesMono toks)
    (hok : process_markers filename toks { lines_total := n } = .ok ctx)
    (hempty : ctx.marker_stack = []) :
    (acceptedBegins ctx).length = (acceptedEnds ctx).length
    ∧ (∀ i ∈ ctx.markers, isRangeBegin (arenaGet ctx.arena i) = true →
        hasResolvedRange (arenaGet ctx.arena i) = true)
    ∧ (∀ i ∈ ctx.markers, isRangeEnd (arenaGet ctx.arena i) = true →
        ∃ j, j ∈ ctx.markers ∧ isRangeBegin (arenaGet ctx.arena j) = true
          ∧ (arenaGet ctx.arena j).ng_range_line_begin
              = (arenaGet ctx.arena i).ng_range_line_begin
          ∧ (arenaGet ctx.arena j).ng_range_line_end
              = (arenaGet ctx.arena i).ng_range_line_end) := by
  have hinit : Inv { lines_total := n } 0 := by
    constructor
    · intro i hi
      exact absurd hi (List.not_mem_nil i)
    · intro i hi
      exact absurd hi (List.not_mem_nil i)
    · intro i hi
      exact absurd hi (List.not_mem_nil i)
    · exact List.Pairwise.nil
    · intro i hi
      exact absurd hi (List.not_mem_nil i)
    · intro i hi
      exact absurd hi (List.not_mem_nil i)
    · rfl
    · intro i hi
      exact absurd hi (List.not_mem_nil i)
    · intro i hi
      exact absurd hi (List.not_mem_nil i)
  obtain ⟨w, hinv⟩ := inv_process_markers filename toks _ ctx 0 hinit
    (fun t ht => Nat.zero_le _) hmono hok
  refine ⟨?_, ?_, ?_⟩
  · have hc := hinv.count_eq
    have ho : (openOrdinary ctx).length = 0 := by
      unfold openOrdinary
      rw [hempty]
      rfl
    omega
  · intro i hi hbeg
    exact hinv.begins_resolved i hi hbeg (by rw [hempty]; exact List.not_mem_nil i)
  · intro i hi hend
    obtain ⟨j, hj1, _, hj3, hj4, hj5⟩ := hinv.ends_paired i hi hend
    exact ⟨j, hj1, hj3, hj4, hj5⟩



theorem matched_parse_marker_invariants_witness :
    linesMono [Tok.rangeTok 2 1 false true ["REQ-1"], Tok.lineTok 3 1 ["REQ-2"],
      Tok.rangeTok 4 1 false false ["REQ-1"]]
    ∧ process_markers none [Tok.rangeTok 2 1 false true ["REQ-1"],
        Tok.lineTok 3 1 ["REQ-2"], Tok.rangeTok 4 1 false false ["REQ-1"]]
        { lines_total := 5 } = .ok exampleMatchedCtx
    ∧ ((acceptedBegins exampleMatchedCtx).length = (acceptedEnds exampleMatchedCtx).length
      ∧ (∀ i ∈ exampleMatchedCtx.markers,
          isRangeBegin (arenaGet exampleMatchedCtx.arena i) = true →
            hasResolvedRange (arenaGet exampleMatchedCtx.arena i) = true)
      ∧ (∀ i ∈ exampleMatchedCtx.markers,
          isRangeEnd (arenaGet exampleMatchedCtx.arena i) = true →
            ∃ j, j ∈ exampleMatchedCtx.markers
              ∧ isRangeBegin (arenaGet exampleMatchedCtx.arena j) = true
              ∧ (arenaGet exampleMatchedCtx.arena j).ng_range_line_begin
                  = (arenaGet exampleMatchedCtx.arena i).ng_range_line_begin
              ∧ (arenaGet exampleMatchedCtx.arena j).ng_range_line_end
                  = (arenaGet exampleMatchedCtx.arena i).ng_range_line_end)) :=
  ⟨by simp [linesMono, List.chain'_cons, Tok.tokLine], rfl,
    matched_parse_marker_invariants none
      [Tok.rangeTok 2 1 false true ["REQ-1"], Tok.lineTok 3 1 ["REQ-2"],
        Tok.rangeTok 4 1 false false ["REQ-1"]] 5 exampleMatchedCtx
      (by simp [linesMono, List.chain'_cons, Tok.tokLine]) rfl rfl⟩

end StrictDoc
